import Mathlib

/-!
# Verification of the X.509 parsed-certificate core

This development embeds the `ParsedCertificate` aggregate of
`net/cert/internal/parsed_certificate.h` and the construction pipeline it
declares. The data model and the inline accessor bodies are translated from
the header; the construction algorithm (`Create`, the TBS parser, the
extension dispatcher, the per-extension handlers, and the name normalizer),
whose implementation files are not part of the sources at hand, is modelled
from the specification, as marked on each definition.

Bytes are modelled as `List Nat`; all DER views become sublists of the
backing list. `Option` models fallible parsing: `none` is construction
failure (the C++ `nullptr` result).
-/

namespace X509

/-! ## DER primitives

Modelled from the spec: the external low-level DER tokenizer (tag/length/value
slicing), which is an out-of-scope collaborator whose implementation is not in
the sources. DER definite lengths in minimal form only, as the spec requires
DER throughout. -/

/-- Modelled from the spec: minimal-form definite DER length encoding (the
inverse of the tokenizer's length reader), for lengths below 2^16. -/
def encodeLen (n : Nat) : List Nat :=
  if n < 128 then [n]
  else if n < 256 then [129, n]
  else [130, n / 256, n % 256]

/-- Modelled from the spec: the DER tokenizer's length reader. Accepts the
short form and the minimal long forms `81`, `82`; anything else (including a
non-minimal encoding or an out-of-range length byte) is rejected. -/
def parseLen : List Nat → Option (Nat × List Nat)
  | [] => none
  | b :: rest =>
    if b < 128 then some (b, rest)
    else if b = 129 then
      match rest with
      | n :: r2 => if 128 ≤ n ∧ n < 256 then some (n, r2) else none
      | [] => none
    else if b = 130 then
      match rest with
      | n1 :: n2 :: r2 =>
        if 1 ≤ n1 ∧ n1 < 256 ∧ n2 < 256 then some (n1 * 256 + n2, r2) else none
      | _ => none
    else none

/-- A DER TLV with tag byte `t` and contents `c`. -/
def mkTLV (t : Nat) (c : List Nat) : List Nat :=
  t :: encodeLen c.length ++ c

/-- Modelled from the spec: the DER tokenizer's TLV reader. Returns the tag,
the contents, and the unconsumed remainder. -/
def readTLV (b : List Nat) : Option (Nat × List Nat × List Nat) :=
  match b with
  | [] => none
  | t :: rest =>
    match parseLen rest with
    | none => none
    | some (n, r2) =>
      if n ≤ r2.length then some (t, r2.take n, r2.drop n) else none

/-- Modelled from the spec: read a TLV requiring a particular tag byte. -/
def expectTLV (t : Nat) (b : List Nat) : Option (List Nat × List Nat) :=
  match readTLV b with
  | some (t', c, r) => if t' = t then some (c, r) else none
  | none => none

/-- Whether the next TLV starts with tag byte `t` (the optional-field peek
used throughout the TBS and extension grammars). -/
def headIs (t : Nat) (b : List Nat) : Bool :=
  match b with
  | x :: _ => x = t
  | [] => false

theorem parseLen_encodeLen {b : List Nat} {n : Nat} {r : List Nat}
    (h : parseLen b = some (n, r)) : encodeLen n ++ r = b := by
  match b with
  | [] => simp [parseLen] at h
  | x :: rest =>
    by_cases h1 : x < 128
    · simp [parseLen, h1] at h
      obtain ⟨rfl, rfl⟩ := h
      simp [encodeLen, h1]
    · by_cases h2 : x = 129
      · subst h2
        match rest with
        | [] => simp [parseLen] at h
        | m :: r2 =>
          simp [parseLen] at h
          rcases h with ⟨hm, rfl, rfl⟩
          have hnl : ¬ m < 128 := by omega
          simp [encodeLen, hnl, hm.2]
      · by_cases h3 : x = 130
        · subst h3
          match rest with
          | [] => simp [parseLen] at h
          | [_] => simp [parseLen] at h
          | m1 :: m2 :: r2 =>
            simp [parseLen, h1, h2] at h
            rcases h with ⟨⟨hm1, hm1b, hm2⟩, rfl, rfl⟩
            have hge : ¬ (m1 * 256 + m2 < 128) := by omega
            have hge2 : ¬ (m1 * 256 + m2 < 256) := by omega
            simp [encodeLen, hge, hge2]
            constructor
            · omega
            · omega
        · simp [parseLen, h1, h2, h3] at h

theorem readTLV_eq {b : List Nat} {t : Nat} {c r : List Nat}
    (h : readTLV b = some (t, c, r)) : mkTLV t c ++ r = b := by
  match b with
  | [] => simp [readTLV] at h
  | x :: rest =>
    simp only [readTLV] at h
    match hL : parseLen rest with
    | none => rw [hL] at h; simp at h
    | some (n, r2) =>
      rw [hL] at h
      by_cases hn : n ≤ r2.length
      · simp [hn] at h
        obtain ⟨rfl, rfl, rfl⟩ := h
        have hlen : (r2.take n).length = n := by
          simp [Nat.min_eq_left hn]
        have hPL := parseLen_encodeLen hL
        simp only [mkTLV, hlen, List.cons_append, List.append_assoc,
          List.take_append_drop, hPL]
      · simp [hn] at h

theorem readTLV_rest_suffix {b : List Nat} {t : Nat} {c r : List Nat}
    (h : readTLV b = some (t, c, r)) : r <:+ b :=
  ⟨mkTLV t c, readTLV_eq h⟩

theorem readTLV_content_within {b : List Nat} {t : Nat} {c r : List Nat}
    (h : readTLV b = some (t, c, r)) : c <:+: b := by
  refine ⟨t :: encodeLen c.length, r, ?_⟩
  have := readTLV_eq h
  simpa [mkTLV] using this

theorem readTLV_tlv_front {b : List Nat} {t : Nat} {c r : List Nat}
    (h : readTLV b = some (t, c, r)) : mkTLV t c <+: b :=
  ⟨r, readTLV_eq h⟩

theorem readTLV_rest_length {b : List Nat} {t : Nat} {c r : List Nat}
    (h : readTLV b = some (t, c, r)) : r.length < b.length := by
  have := readTLV_eq h
  have hlen : (mkTLV t c ++ r).length = b.length := by rw [this]
  simp [mkTLV] at hlen
  omega

/-- Modelled from the spec: linear walk over a SEQUENCE-OF body, applying an
element parser `f` that consumes a prefix, until the body is exhausted. Fuel
bounds the recursion; `fuel = b.length` always suffices since each element
consumes at least one byte. -/
def iterParse {α : Type} (f : List Nat → Option (α × List Nat)) :
    Nat → List Nat → Option (List α)
  | _, [] => some []
  | 0, _ :: _ => none
  | fuel + 1, x :: xs =>
    match f (x :: xs) with
    | some (a, r) =>
      if r.length < xs.length + 1 then
        (iterParse f fuel r).map (a :: ·)
      else none
    | none => none

theorem iterParse_mem {α : Type} {f : List Nat → Option (α × List Nat)}
    {P : α → List Nat → Prop}
    (hf : ∀ b a r, f b = some (a, r) → P a b)
    (hsuf : ∀ b a r, f b = some (a, r) → r <:+ b)
    (hmono : ∀ a b b', P a b → b <:+ b' → P a b') :
    ∀ fuel b l, iterParse f fuel b = some l → ∀ a ∈ l, P a b := by
  intro fuel
  induction fuel with
  | zero =>
    intro b l h a ha
    match b with
    | [] => simp [iterParse] at h; subst h; simp at ha
    | x :: xs => simp [iterParse] at h
  | succ n ih =>
    intro b l h a ha
    match b with
    | [] => simp [iterParse] at h; subst h; simp at ha
    | x :: xs =>
      simp only [iterParse] at h
      match hfb : f (x :: xs) with
      | none => rw [hfb] at h; simp at h
      | some (a0, r) =>
        rw [hfb] at h
        dsimp only at h
        by_cases hr : r.length < xs.length + 1
        · rw [if_pos hr] at h
          match hit : iterParse f n r with
          | none => rw [hit] at h; simp at h
          | some l0 =>
            rw [hit] at h
            simp at h
            subst h
            rcases List.mem_cons.mp ha with rfl | ha2
            · exact hf _ _ _ hfb
            · exact hmono a r (x :: xs) (ih r l0 hit a ha2) (hsuf _ _ _ hfb)
        · rw [if_neg hr] at h; simp at h

theorem expectTLV_eq {t : Nat} {b c r : List Nat}
    (h : expectTLV t b = some (c, r)) :
    readTLV b = some (t, c, r) := by
  simp only [expectTLV] at h
  match hR : readTLV b with
  | none => rw [hR] at h; simp at h
  | some (t', c', r') =>
    rw [hR] at h
    by_cases ht : t' = t
    · subst ht
      simp only [if_pos rfl, Option.some_inj] at h
      cases h
      rfl
    · simp [ht] at h

/-! ## Data model

Translated from `parsed_certificate.h` and the declarations it consumes
(`ParsedExtension`, `ParsedBasicConstraints`, …, declared in the included
`parse_certificate.h`, whose file is not in the sources; their shapes are
modelled from the spec's data-model section). -/

/-- A `der::BitString`: the unused-bit count and the payload bytes. -/
structure BitString where
  unused_bits : Nat := 0
  bytes : List Nat := []
deriving DecidableEq, Repr, Inhabited

/-- Modelled from the spec: one entry of the extensions map — the extension
OID (contents bytes), the criticality flag, and the inner extnValue bytes. -/
structure ParsedExtension where
  oid : List Nat := []
  critical : Bool := false
  value : List Nat := []
deriving DecidableEq, Repr, Inhabited

/-- Modelled from the spec: decoded BasicConstraints. -/
structure ParsedBasicConstraints where
  is_ca : Bool := false
  has_path_len : Bool := false
  path_len : Nat := 0
deriving DecidableEq, Repr, Inhabited

/-- Modelled from the spec: decoded PolicyConstraints; at least one of the two
fields is present in any successfully parsed extension. -/
structure ParsedPolicyConstraints where
  require_explicit_policy : Option Nat := none
  inhibit_policy_mapping : Option Nat := none
deriving DecidableEq, Repr, Inhabited

/-- Modelled from the spec: one PolicyMappings pair. -/
structure ParsedPolicyMapping where
  issuer_domain_policy : List Nat := []
  subject_domain_policy : List Nat := []
deriving DecidableEq, Repr, Inhabited

/-- Modelled from the spec: decoded AuthorityKeyIdentifier; all three fields
optional. -/
structure ParsedAuthorityKeyIdentifier where
  key_identifier : Option (List Nat) := none
  authority_cert_issuer : Option (List Nat) := none
  authority_cert_serial : Option (List Nat) := none
deriving DecidableEq, Repr, Inhabited

/-- Modelled from the spec: the external GeneralNames parser's result, kept
shallow — the list of (context tag, contents) entries of the SEQUENCE. -/
structure GeneralNames where
  names : List (Nat × List Nat) := []
deriving DecidableEq, Repr, Inhabited

/-- Modelled from the spec: the external NameConstraints parser's result; at
least one of the two subtree lists is present. -/
structure NameConstraints where
  permitted_subtrees : Option (List Nat) := none
  excluded_subtrees : Option (List Nat) := none
deriving DecidableEq, Repr, Inhabited

/-- Modelled from the spec: the external signature-algorithm descriptor
parser's result — the algorithm OID contents and the raw parameter bytes. -/
structure SignatureAlgorithm where
  oid : List Nat := []
  params : List Nat := []
deriving DecidableEq, Repr, Inhabited

/-- Modelled from the spec: the raw TBSCertificate fields (§4.3). Optional
fields are tagged variants; times are kept as the opaque tokens the verifier
interprets. -/
structure ParsedTbsCertificate where
  version : Nat := 1
  serial_number : List Nat := []
  signature_algorithm_tlv : List Nat := []
  issuer_tlv : List Nat := []
  validity_not_before : List Nat := []
  validity_not_after : List Nat := []
  subject_tlv : List Nat := []
  spki_tlv : List Nat := []
  issuer_unique_id : Option (List Nat) := none
  subject_unique_id : Option (List Nat) := none
  extensions_tlv : Option (List Nat) := none
deriving DecidableEq, Repr, Inhabited

/-- The construction options (§4.1): the only recognized option. -/
structure ParseCertificateOptions where
  allow_invalid_serial_numbers : Bool := false
deriving DecidableEq, Repr, Inhabited

/-! ## Primitive value parsers -/

/-- Modelled from the spec: whether INTEGER contents are DER-minimal (the
canonical range check gated by `allow_invalid_serial_numbers`). -/
def intMinimal : List Nat → Bool
  | 0 :: b :: _ => decide (128 ≤ b)
  | 255 :: b :: _ => decide (b < 128)
  | _ => true

/-- Big-endian base-256 value of a byte list. -/
def natFromBytes (l : List Nat) : Nat := l.foldl (fun acc b => acc * 256 + b) 0

/-- Modelled from the spec: decode a non-negative DER INTEGER contents to a
`Nat`; rejects empty contents, negative values, and non-minimal encodings. -/
def parseIntNonNeg (c : List Nat) : Option Nat :=
  match c with
  | [] => none
  | b :: _ => if b < 128 ∧ intMinimal c then some (natFromBytes c) else none

/-- Modelled from the spec: decode DER BOOLEAN contents. -/
def parseBool (c : List Nat) : Option Bool :=
  if c = [0] then some false
  else if c = [255] then some true
  else none

/-- Modelled from the spec: decode BIT STRING contents: the unused-bit count
byte followed by the payload; an empty payload forces zero unused bits. -/
def parseBitString (c : List Nat) : Option BitString :=
  match c with
  | [] => none
  | u :: rest =>
    if u ≤ 7 ∧ (rest = [] → u = 0) then some ⟨u, rest⟩ else none

theorem parseBitString_eq {c : List Nat} {bs : BitString}
    (h : parseBitString c = some bs) : bs.unused_bits :: bs.bytes = c := by
  match c with
  | [] => simp [parseBitString] at h
  | u :: rest =>
    simp only [parseBitString] at h
    by_cases hc : u ≤ 7 ∧ (rest = [] → u = 0)
    · rw [if_pos hc] at h
      cases h
      rfl
    · rw [if_neg hc] at h
      simp at h

/-! ## Known extension OIDs (contents bytes) -/

def kBasicConstraintsOid : List Nat := [85, 29, 19]
def kKeyUsageOid : List Nat := [85, 29, 15]
def kExtKeyUsageOid : List Nat := [85, 29, 37]
def kSubjectAltNameOid : List Nat := [85, 29, 17]
def kNameConstraintsOid : List Nat := [85, 29, 30]
def kCertificatePoliciesOid : List Nat := [85, 29, 32]
def kPolicyConstraintsOid : List Nat := [85, 29, 36]
def kPolicyMappingsOid : List Nat := [85, 29, 33]
def kInhibitAnyPolicyOid : List Nat := [85, 29, 54]
def kAuthorityInfoAccessOid : List Nat := [43, 6, 1, 5, 5, 7, 1, 1]
def kAuthorityKeyIdentifierOid : List Nat := [85, 29, 35]
def kSubjectKeyIdentifierOid : List Nat := [85, 29, 14]
def kAnyPolicyOid : List Nat := [85, 29, 32, 0]
def kAdCaIssuersOid : List Nat := [43, 6, 1, 5, 5, 7, 48, 2]
def kAdOcspOid : List Nat := [43, 6, 1, 5, 5, 7, 48, 1]

/-- The kinds of extensions with a registered handler. -/
inductive HandlerKind where
  | bc | ku | eku | san | nc | policies | pc | pm | iap | aia | aki | ski
deriving DecidableEq, Repr

/-- Modelled from the spec: the OID → handler table, the only source of truth
for "known" extensions (§4.4). -/
def handlerTable : List (List Nat × HandlerKind) :=
  [(kBasicConstraintsOid, .bc), (kKeyUsageOid, .ku), (kExtKeyUsageOid, .eku),
   (kSubjectAltNameOid, .san), (kNameConstraintsOid, .nc),
   (kCertificatePoliciesOid, .policies), (kPolicyConstraintsOid, .pc),
   (kPolicyMappingsOid, .pm), (kInhibitAnyPolicyOid, .iap),
   (kAuthorityInfoAccessOid, .aia), (kAuthorityKeyIdentifierOid, .aki),
   (kSubjectKeyIdentifierOid, .ski)]

/-- First-match lookup in the handler table. -/
def lookupHandler : List (List Nat × HandlerKind) → List Nat →
    Option HandlerKind
  | [], _ => none
  | (k, v) :: r, oid => if k = oid then some v else lookupHandler r oid

/-- Modelled from the spec: resolve an extension OID against the handler
table. -/
def findHandler (oid : List Nat) : Option HandlerKind :=
  lookupHandler handlerTable oid

/-- Whether an OID is in the handler table. -/
def isKnownOid (oid : List Nat) : Bool := (findHandler oid).isSome

/-! ## Per-extension handlers (§4.5)

Modelled from the spec: each handler receives the inner extension bytes and
must consume them exactly; handler failure fails the whole construction. -/

/-- Modelled from the spec: BasicConstraints handler — `SEQUENCE { cA BOOLEAN
DEFAULT FALSE, pathLenConstraint INTEGER OPTIONAL }`; a pathLenConstraint is
valid only when `cA = TRUE`, and is bounded by `2^31 - 1`. -/
def parseBasicConstraints (v : List Nat) : Option ParsedBasicConstraints :=
  match expectTLV 48 v with
  | none => none
  | some (body, rest) =>
    if rest ≠ [] then none else
    let caStep : Option (Bool × List Nat) :=
      if headIs 1 body then
        match expectTLV 1 body with
        | some (c, r) => (parseBool c).map (fun x => (x, r))
        | none => none
      else some (false, body)
    match caStep with
    | none => none
    | some (ca, r1) =>
      if r1 = [] then some { is_ca := ca }
      else if headIs 2 r1 then
        match expectTLV 2 r1 with
        | some (c, r2) =>
          if r2 = [] then
            match parseIntNonNeg c with
            | some n =>
              if ca = true ∧ n < 2147483648 then
                some { is_ca := ca, has_path_len := true, path_len := n }
              else none
            | none => none
          else none
        | none => none
      else none

/-- Modelled from the spec: KeyUsage handler — a DER BIT STRING of 1..9 bits,
retained as received. -/
def parseKeyUsage (v : List Nat) : Option BitString :=
  match expectTLV 3 v with
  | none => none
  | some (c, rest) =>
    if rest ≠ [] then none else
    match parseBitString c with
    | none => none
    | some bs =>
      if 1 ≤ bs.bytes.length * 8 - bs.unused_bits ∧
         bs.bytes.length * 8 - bs.unused_bits ≤ 9 then some bs else none

/-- Modelled from the spec: one OID element of a SEQUENCE OF OID. -/
def parseOidStep (b : List Nat) : Option (List Nat × List Nat) :=
  match expectTLV 6 b with
  | some (oid, r) => if oid = [] then none else some (oid, r)
  | none => none

/-- Modelled from the spec: ExtendedKeyUsage handler — a non-empty
SEQUENCE OF OID, consumed exactly. -/
def parseEku (v : List Nat) : Option (List (List Nat)) :=
  match expectTLV 48 v with
  | none => none
  | some (body, rest) =>
    if rest ≠ [] then none else
    match iterParse parseOidStep (body.length + 1) body with
    | some oids => if oids = [] then none else some oids
    | none => none

/-- Modelled from the spec: one GeneralName of the external GeneralNames
parser — a context-specific tag (`[0]`..`[8]`, primitive or constructed) with
raw contents. -/
def parseGeneralNameStep (b : List Nat) : Option ((Nat × List Nat) × List Nat) :=
  match readTLV b with
  | some (t, c, r) =>
    if (128 ≤ t ∧ t ≤ 136) ∨ (160 ≤ t ∧ t ≤ 168) then some ((t, c), r) else none
  | none => none

/-- Modelled from the spec: the external GeneralNames parser — a non-empty
SEQUENCE OF GeneralName; an empty GeneralNames is rejected. -/
def parseGeneralNames (v : List Nat) : Option GeneralNames :=
  match expectTLV 48 v with
  | none => none
  | some (body, rest) =>
    if rest ≠ [] then none else
    match iterParse parseGeneralNameStep (body.length + 1) body with
    | some gns => if gns = [] then none else some ⟨gns⟩
    | none => none

/-- Modelled from the spec: the external NameConstraints parser — at least one
of permittedSubtrees (`[0]`) / excludedSubtrees (`[1]`) must be present. -/
def parseNameConstraints (v : List Nat) : Option NameConstraints :=
  match expectTLV 48 v with
  | none => none
  | some (body, rest) =>
    if rest ≠ [] then none else
    let permStep : Option (Option (List Nat) × List Nat) :=
      if headIs 160 body then
        match expectTLV 160 body with
        | some (c, r) => some (some c, r)
        | none => none
      else some (none, body)
    match permStep with
    | none => none
    | some (perm, r1) =>
      let exclStep : Option (Option (List Nat) × List Nat) :=
        if headIs 161 r1 then
          match expectTLV 161 r1 with
          | some (c, r) => some (some c, r)
          | none => none
        else some (none, r1)
      match exclStep with
      | none => none
      | some (excl, r2) =>
        if r2 = [] ∧ (perm.isSome ∨ excl.isSome) then
          some ⟨perm, excl⟩
        else none

/-- Modelled from the spec: one PolicyInformation — `SEQUENCE { policyOID,
qualifiers SEQUENCE OPTIONAL }`; qualifiers are checked for framing and
discarded. -/
def parsePolicyInfoStep (b : List Nat) : Option (List Nat × List Nat) :=
  match expectTLV 48 b with
  | none => none
  | some (pbody, r) =>
    match expectTLV 6 pbody with
    | none => none
    | some (oid, qrest) =>
      if oid = [] then none else
      match qrest with
      | [] => some (oid, r)
      | _ =>
        match expectTLV 48 qrest with
        | some (_, qr) => if qr = [] then some (oid, r) else none
        | none => none

/-- Modelled from the spec: CertificatePolicies handler — a non-empty
SEQUENCE OF PolicyInformation; duplicate policy OIDs are rejected; only the
OIDs are retained. -/
def parseCertificatePolicies (v : List Nat) : Option (List (List Nat)) :=
  match expectTLV 48 v with
  | none => none
  | some (body, rest) =>
    if rest ≠ [] then none else
    match iterParse parsePolicyInfoStep (body.length + 1) body with
    | some oids =>
      if oids = [] then none
      else if oids.Nodup then some oids else none
    | none => none

/-- Modelled from the spec: PolicyConstraints handler — at least one of
requireExplicitPolicy (`[0]`) / inhibitPolicyMapping (`[1]`) present. -/
def parsePolicyConstraints (v : List Nat) : Option ParsedPolicyConstraints :=
  match expectTLV 48 v with
  | none => none
  | some (body, rest) =>
    if rest ≠ [] then none else
    let reqStep : Option (Option Nat × List Nat) :=
      if headIs 128 body then
        match expectTLV 128 body with
        | some (c, r) => (parseIntNonNeg c).map (fun n => (some n, r))
        | none => none
      else some (none, body)
    match reqStep with
    | none => none
    | some (req, r1) =>
      let inhStep : Option (Option Nat × List Nat) :=
        if headIs 129 r1 then
          match expectTLV 129 r1 with
          | some (c, r) => (parseIntNonNeg c).map (fun n => (some n, r))
          | none => none
        else some (none, r1)
      match inhStep with
      | none => none
      | some (inh, r2) =>
        if r2 = [] ∧ (req.isSome ∨ inh.isSome) then
          some ⟨req, inh⟩
        else none

/-- Modelled from the spec: one PolicyMappings pair — `SEQUENCE
{ issuerDomainPolicy OID, subjectDomainPolicy OID }`; neither side may be
anyPolicy. -/
def parsePolicyMappingStep (b : List Nat) :
    Option (ParsedPolicyMapping × List Nat) :=
  match expectTLV 48 b with
  | none => none
  | some (mb, r) =>
    match expectTLV 6 mb with
    | none => none
    | some (o1, r1) =>
      match expectTLV 6 r1 with
      | none => none
      | some (o2, r2) =>
        if r2 = [] ∧ o1 ≠ [] ∧ o2 ≠ [] ∧
           o1 ≠ kAnyPolicyOid ∧ o2 ≠ kAnyPolicyOid then
          some (⟨o1, o2⟩, r)
        else none

/-- Modelled from the spec: PolicyMappings handler — a non-empty SEQUENCE of
pairs. -/
def parsePolicyMappings (v : List Nat) : Option (List ParsedPolicyMapping) :=
  match expectTLV 48 v with
  | none => none
  | some (body, rest) =>
    if rest ≠ [] then none else
    match iterParse parsePolicyMappingStep (body.length + 1) body with
    | some maps => if maps = [] then none else some maps
    | none => none

/-- Modelled from the spec: InhibitAnyPolicy handler — an INTEGER that must
fit in an 8-bit unsigned value. -/
def parseInhibitAnyPolicy (v : List Nat) : Option Nat :=
  match expectTLV 2 v with
  | none => none
  | some (c, rest) =>
    if rest ≠ [] then none else
    match parseIntNonNeg c with
    | some n => if n ≤ 255 then some n else none
    | none => none

/-- Modelled from the spec: one AccessDescription — `SEQUENCE { accessMethod
OID, accessLocation GeneralName }`. -/
def parseAccessDescriptionStep (b : List Nat) :
    Option ((List Nat × Nat × List Nat) × List Nat) :=
  match expectTLV 48 b with
  | none => none
  | some (ab, r) =>
    match expectTLV 6 ab with
    | none => none
    | some (m, r1) =>
      if m = [] then none else
      match readTLV r1 with
      | some (lt, lc, lr) =>
        if lr = [] ∧ ((128 ≤ lt ∧ lt ≤ 136) ∨ (160 ≤ lt ∧ lt ≤ 168)) then
          some ((m, lt, lc), r)
        else none
      | none => none

/-- Modelled from the spec: AuthorityInfoAccess handler — a non-empty
SEQUENCE OF AccessDescription; caIssuers/OCSP entries whose location is a URI
(`[6]` = tag 134) are collected in source order, all others dropped
silently. -/
def parseAuthorityInfoAccess (v : List Nat) :
    Option (List (List Nat) × List (List Nat)) :=
  match expectTLV 48 v with
  | none => none
  | some (body, rest) =>
    if rest ≠ [] then none else
    match iterParse parseAccessDescriptionStep (body.length + 1) body with
    | some ads =>
      if ads = [] then none
      else
        some (ads.filterMap (fun x =>
                if x.1 = kAdCaIssuersOid ∧ x.2.1 = 134 then some x.2.2 else none),
              ads.filterMap (fun x =>
                if x.1 = kAdOcspOid ∧ x.2.1 = 134 then some x.2.2 else none))
    | none => none

/-- Modelled from the spec: AuthorityKeyIdentifier handler — all three inner
fields optional; the structure is retained even if all are absent. -/
def parseAki (v : List Nat) : Option ParsedAuthorityKeyIdentifier :=
  match expectTLV 48 v with
  | none => none
  | some (body, rest) =>
    if rest ≠ [] then none else
    let kidStep : Option (Option (List Nat) × List Nat) :=
      if headIs 128 body then
        match expectTLV 128 body with
        | some (c, r) => some (some c, r)
        | none => none
      else some (none, body)
    match kidStep with
    | none => none
    | some (kid, r1) =>
      let aciStep : Option (Option (List Nat) × List Nat) :=
        if headIs 161 r1 then
          match expectTLV 161 r1 with
          | some (c, r) => some (some c, r)
          | none => none
        else some (none, r1)
      match aciStep with
      | none => none
      | some (aci, r2) =>
        let serStep : Option (Option (List Nat) × List Nat) :=
          if headIs 130 r2 then
            match expectTLV 130 r2 with
            | some (c, r) => some (some c, r)
            | none => none
          else some (none, r2)
        match serStep with
        | none => none
        | some (ser, r3) =>
          if r3 = [] then some ⟨kid, aci, ser⟩ else none

/-- Modelled from the spec: SubjectKeyIdentifier handler — an OCTET STRING of
any length. -/
def parseSki (v : List Nat) : Option (List Nat) :=
  match expectTLV 4 v with
  | some (c, rest) => if rest = [] then some c else none
  | none => none

/-! ## Extension dispatcher (§4.4) -/

/-- The decoded-extension part of the aggregate's state. Field names mirror
the private members of `ParsedCertificate` in `parsed_certificate.h`. -/
structure CertExtState where
  extensions_ : List (List Nat × ParsedExtension) := []
  has_basic_constraints_ : Bool := false
  basic_constraints_ : ParsedBasicConstraints := {}
  has_key_usage_ : Bool := false
  key_usage_ : BitString := {}
  has_extended_key_usage_ : Bool := false
  extended_key_usage_ : List (List Nat) := []
  subject_alt_names_extension_ : ParsedExtension := {}
  subject_alt_names_ : Option GeneralNames := none
  name_constraints_ : Option NameConstraints := none
  has_authority_info_access_ : Bool := false
  authority_info_access_extension_ : ParsedExtension := {}
  ca_issuers_uris_ : List (List Nat) := []
  ocsp_uris_ : List (List Nat) := []
  has_policy_oids_ : Bool := false
  policy_oids_ : List (List Nat) := []
  has_policy_constraints_ : Bool := false
  policy_constraints_ : ParsedPolicyConstraints := {}
  has_policy_mappings_ : Bool := false
  policy_mappings_ : List ParsedPolicyMapping := []
  has_inhibit_any_policy_ : Bool := false
  inhibit_any_policy_ : Nat := 0
  authority_key_identifier_ : Option ParsedAuthorityKeyIdentifier := none
  subject_key_identifier_ : Option (List Nat) := none
deriving DecidableEq, Repr, Inhabited

/-- First-match lookup in the OID-keyed extensions map (the `std::map`
membership test used by the dispatcher and by `GetExtension`). -/
def lookupExt : List (List Nat × ParsedExtension) → List Nat →
    Option ParsedExtension
  | [], _ => none
  | (k, v) :: r, oid => if k = oid then some v else lookupExt r oid

/-- Modelled from the spec: parse one `Extension ::= SEQUENCE { extnID OID,
critical BOOLEAN DEFAULT FALSE, extnValue OCTET STRING }` from the front of
the extensions SEQUENCE body. -/
def parseOneExtension (b : List Nat) : Option (ParsedExtension × List Nat) :=
  match expectTLV 48 b with
  | none => none
  | some (eb, r) =>
    match expectTLV 6 eb with
    | none => none
    | some (oid, r1) =>
      if oid = [] then none else
      let critStep : Option (Bool × List Nat) :=
        if headIs 1 r1 then
          match expectTLV 1 r1 with
          | some (c, r2) => (parseBool c).map (fun x => (x, r2))
          | none => none
        else some (false, r1)
      match critStep with
      | none => none
      | some (crit, r2) =>
        match expectTLV 4 r2 with
        | some (val, r3) =>
          if r3 = [] then some (⟨oid, crit, val⟩, r) else none
        | none => none

/-- Modelled from the spec: split the extensions SEQUENCE body into its
Extension entries, in order. -/
def parseExtensionList (body : List Nat) : Option (List ParsedExtension) :=
  iterParse parseOneExtension (body.length + 1) body

/-- The outcome of dispatching one extension to the handler table: which
decoded field to attach, or `unknown` for an OID with no handler. -/
inductive HandlerResult where
  | bc (v : ParsedBasicConstraints)
  | ku (v : BitString)
  | eku (v : List (List Nat))
  | san (raw : ParsedExtension) (v : GeneralNames)
  | nc (v : NameConstraints)
  | policies (v : List (List Nat))
  | pc (v : ParsedPolicyConstraints)
  | pm (v : List ParsedPolicyMapping)
  | iap (v : Nat)
  | aia (raw : ParsedExtension) (ca : List (List Nat)) (oc : List (List Nat))
  | aki (v : ParsedAuthorityKeyIdentifier)
  | ski (v : List Nat)
  | unknown
deriving DecidableEq, Repr

/-- Modelled from the spec: look the OID up in the handler table and run the
matching handler on the inner bytes; an unknown OID — critical or not — is
not an error. -/
def runHandler (ext : ParsedExtension) : Option HandlerResult :=
  match findHandler ext.oid with
  | some .bc => (parseBasicConstraints ext.value).map .bc
  | some .ku => (parseKeyUsage ext.value).map .ku
  | some .eku => (parseEku ext.value).map .eku
  | some .san => (parseGeneralNames ext.value).map (.san ext)
  | some .nc => (parseNameConstraints ext.value).map .nc
  | some .policies => (parseCertificatePolicies ext.value).map .policies
  | some .pc => (parsePolicyConstraints ext.value).map .pc
  | some .pm => (parsePolicyMappings ext.value).map .pm
  | some .iap => (parseInhibitAnyPolicy ext.value).map .iap
  | some .aia =>
    (parseAuthorityInfoAccess ext.value).map (fun p => .aia ext p.1 p.2)
  | some .aki => (parseAki ext.value).map .aki
  | some .ski => (parseSki ext.value).map .ski
  | none => some .unknown

/-- Attach a handler's decoded result to the aggregate state; the extensions
map is not touched here. -/
def applyResult (st : CertExtState) : HandlerResult → CertExtState
  | .bc v => { st with has_basic_constraints_ := true, basic_constraints_ := v }
  | .ku v => { st with has_key_usage_ := true, key_usage_ := v }
  | .eku v =>
    { st with has_extended_key_usage_ := true, extended_key_usage_ := v }
  | .san raw v =>
    { st with subject_alt_names_extension_ := raw, subject_alt_names_ := some v }
  | .nc v => { st with name_constraints_ := some v }
  | .policies v => { st with has_policy_oids_ := true, policy_oids_ := v }
  | .pc v =>
    { st with has_policy_constraints_ := true, policy_constraints_ := v }
  | .pm v => { st with has_policy_mappings_ := true, policy_mappings_ := v }
  | .iap v =>
    { st with has_inhibit_any_policy_ := true, inhibit_any_policy_ := v }
  | .aia raw ca oc =>
    { st with has_authority_info_access_ := true,
              authority_info_access_extension_ := raw,
              ca_issuers_uris_ := ca, ocsp_uris_ := oc }
  | .aki v => { st with authority_key_identifier_ := some v }
  | .ski v => { st with subject_key_identifier_ := some v }
  | .unknown => st

/-- Modelled from the spec: invoke the known handler matching the OID, if
any; handler failure fails construction, while an unknown OID leaves the
decoded state unchanged. -/
def applyHandler (ext : ParsedExtension) (st : CertExtState) :
    Option CertExtState :=
  (runHandler ext).map (applyResult st)

/-- Modelled from the spec: process one extension — record it in the map,
failing on a duplicate OID, then dispatch to the known handler if any. -/
def dispatchOne (st : CertExtState) (ext : ParsedExtension) :
    Option CertExtState :=
  match lookupExt st.extensions_ ext.oid with
  | some _ => none
  | none =>
    applyHandler ext { st with extensions_ := st.extensions_ ++ [(ext.oid, ext)] }

/-- Modelled from the spec: walk the extensions linearly, threading the
aggregate state. -/
def dispatchAll (st : CertExtState) : List ParsedExtension → Option CertExtState
  | [] => some st
  | e :: es =>
    match dispatchOne st e with
    | some st2 => dispatchAll st2 es
    | none => none

theorem applyResult_extensions (st : CertExtState) (d : HandlerResult) :
    (applyResult st d).extensions_ = st.extensions_ := by
  cases d <;> rfl

theorem applyHandler_extensions {ext : ParsedExtension} {st st' : CertExtState}
    (h : applyHandler ext st = some st') : st'.extensions_ = st.extensions_ := by
  unfold applyHandler at h
  simp only [Option.map_eq_some'] at h
  obtain ⟨d, -, rfl⟩ := h
  exact applyResult_extensions st d

/-! ## Dispatcher lemmas -/

theorem lookupExt_eq_none_iff (l : List (List Nat × ParsedExtension))
    (k : List Nat) : lookupExt l k = none ↔ k ∉ l.map Prod.fst := by
  induction l with
  | nil => simp [lookupExt]
  | cons hd tl ih =>
    obtain ⟨k0, v0⟩ := hd
    by_cases hk : k0 = k
    · subst hk
      simp [lookupExt]
    · simp [lookupExt, hk, ih]
      intro hne
      exact fun he => hk he.symm

theorem lookupExt_append_self {l : List (List Nat × ParsedExtension)}
    {k : List Nat} (v : ParsedExtension) (h : lookupExt l k = none) :
    lookupExt (l ++ [(k, v)]) k = some v := by
  induction l with
  | nil => simp [lookupExt]
  | cons hd tl ih =>
    obtain ⟨k0, v0⟩ := hd
    by_cases hk : k0 = k
    · subst hk; simp [lookupExt] at h
    · simp only [lookupExt, if_neg hk] at h ⊢
      exact ih h

theorem lookupExt_append_mono {l : List (List Nat × ParsedExtension)}
    {k k2 : List Nat} {v v2 : ParsedExtension}
    (h : lookupExt l k = some v) :
    lookupExt (l ++ [(k2, v2)]) k = some v := by
  induction l with
  | nil => simp [lookupExt] at h
  | cons hd tl ih =>
    obtain ⟨k0, v0⟩ := hd
    by_cases hk : k0 = k
    · subst hk; simp_all [lookupExt]
    · simp only [lookupExt, if_neg hk] at h ⊢
      exact ih h

theorem dispatchOne_extensions {st st' : CertExtState} {e : ParsedExtension}
    (h : dispatchOne st e = some st') :
    lookupExt st.extensions_ e.oid = none ∧
      st'.extensions_ = st.extensions_ ++ [(e.oid, e)] := by
  unfold dispatchOne at h
  match hl : lookupExt st.extensions_ e.oid with
  | some _ => rw [hl] at h; simp at h
  | none =>
    rw [hl] at h
    exact ⟨rfl, by simpa using applyHandler_extensions h⟩

theorem dispatchAll_nodup {es : List ParsedExtension} :
    ∀ {st st' : CertExtState}, dispatchAll st es = some st' →
    (st.extensions_.map Prod.fst).Nodup →
    (st'.extensions_.map Prod.fst).Nodup := by
  induction es with
  | nil =>
    intro st st' h hn
    simp only [dispatchAll, Option.some_inj] at h
    subst h; exact hn
  | cons e es ih =>
    intro st st' h hn
    simp only [dispatchAll] at h
    match hd : dispatchOne st e with
    | none => rw [hd] at h; simp at h
    | some st2 =>
      rw [hd] at h
      obtain ⟨hnone, hext⟩ := dispatchOne_extensions hd
      refine ih h ?_
      rw [hext, List.map_append, List.map_singleton]
      refine List.Nodup.append hn (List.nodup_singleton _) ?_
      intro x hx hy
      simp at hy
      subst hy
      exact ((lookupExt_eq_none_iff _ _).mp hnone) hx

theorem dispatchAll_lookup_mono {es : List ParsedExtension} :
    ∀ {st st' : CertExtState} {k : List Nat} {v : ParsedExtension},
    dispatchAll st es = some st' →
    lookupExt st.extensions_ k = some v →
    lookupExt st'.extensions_ k = some v := by
  induction es with
  | nil =>
    intro st st' k v h hk
    simp only [dispatchAll, Option.some_inj] at h
    subst h; exact hk
  | cons e es ih =>
    intro st st' k v h hk
    simp only [dispatchAll] at h
    match hd : dispatchOne st e with
    | none => rw [hd] at h; simp at h
    | some st2 =>
      rw [hd] at h
      obtain ⟨-, hext⟩ := dispatchOne_extensions hd
      refine ih h ?_
      rw [hext]
      exact lookupExt_append_mono hk

theorem dispatchAll_append (st : CertExtState) (xs : List ParsedExtension)
    (e : ParsedExtension) :
    dispatchAll st (xs ++ [e]) =
      (dispatchAll st xs).bind (fun s => dispatchOne s e) := by
  induction xs generalizing st with
  | nil =>
    simp only [List.nil_append, dispatchAll]
    match hd : dispatchOne st e with
    | none => simp [dispatchAll, hd]
    | some st2 => simp [dispatchAll, hd]
  | cons x xs ih =>
    simp only [List.cons_append, dispatchAll]
    match hd : dispatchOne st x with
    | none => simp
    | some st2 => exact ih st2

theorem dispatchAll_ne_nil {st st' : CertExtState} {e : ParsedExtension}
    {es : List ParsedExtension}
    (h : dispatchAll st (e :: es) = some st') : st'.extensions_ ≠ [] := by
  have hlen : ∀ (l : List ParsedExtension) (s s' : CertExtState),
      dispatchAll s l = some s' →
      s.extensions_.length ≤ s'.extensions_.length := by
    intro l
    induction l with
    | nil =>
      intro s s' hh
      simp only [dispatchAll, Option.some_inj] at hh
      subst hh; exact Nat.le_refl _
    | cons y ys ih =>
      intro s s' hh
      simp only [dispatchAll] at hh
      match hd : dispatchOne s y with
      | none => rw [hd] at hh; simp at hh
      | some s2 =>
        rw [hd] at hh
        have := ih s2 s' hh
        obtain ⟨-, hext⟩ := dispatchOne_extensions hd
        rw [hext] at this
        simp at this
        omega
  simp only [dispatchAll] at h
  match hd : dispatchOne st e with
  | none => rw [hd] at h; simp at h
  | some st2 =>
    rw [hd] at h
    have h1 := hlen es st2 st' h
    obtain ⟨-, hext⟩ := dispatchOne_extensions hd
    rw [hext] at h1
    simp at h1
    intro hnil
    rw [hnil] at h1
    simp at h1

theorem runHandler_unknown {ext : ParsedExtension}
    (hk : isKnownOid ext.oid = false) : runHandler ext = some .unknown := by
  unfold isKnownOid at hk
  unfold runHandler
  match hf : findHandler ext.oid with
  | none => rfl
  | some k => rw [hf] at hk; simp at hk

theorem dispatchOne_unknown {st : CertExtState} {e : ParsedExtension}
    (hk : isKnownOid e.oid = false)
    (hl : lookupExt st.extensions_ e.oid = none) :
    dispatchOne st e =
      some { st with extensions_ := st.extensions_ ++ [(e.oid, e)] } := by
  unfold dispatchOne
  rw [hl]
  unfold applyHandler
  rw [runHandler_unknown hk]
  rfl

theorem lookupHandler_mem {l : List (List Nat × HandlerKind)} {oid : List Nat}
    {v : HandlerKind} (h : lookupHandler l oid = some v) : (oid, v) ∈ l := by
  induction l with
  | nil => simp [lookupHandler] at h
  | cons hd tl ih =>
    obtain ⟨k0, v0⟩ := hd
    by_cases hk : k0 = oid
    · subst hk
      simp only [lookupHandler, eq_self_iff_true, if_true, Option.some_inj] at h
      subst h
      exact List.mem_cons_self _ _
    · simp only [lookupHandler, if_neg hk] at h
      exact List.mem_cons_of_mem _ (ih h)

theorem findHandler_san {oid : List Nat} (h : findHandler oid = some .san) :
    oid = kSubjectAltNameOid := by
  have hm := lookupHandler_mem h
  simp [handlerTable] at hm
  exact hm

theorem runHandler_san_inv {ext raw : ParsedExtension} {v : GeneralNames}
    (h : runHandler ext = some (.san raw v)) :
    ext.oid = kSubjectAltNameOid ∧ raw = ext := by
  unfold runHandler at h
  match hf : findHandler ext.oid with
  | none => rw [hf] at h; cases h
  | some .bc =>
    rw [hf] at h; simp only [Option.map_eq_some'] at h
    obtain ⟨x, -, hx⟩ := h; cases hx
  | some .ku =>
    rw [hf] at h; simp only [Option.map_eq_some'] at h
    obtain ⟨x, -, hx⟩ := h; cases hx
  | some .eku =>
    rw [hf] at h; simp only [Option.map_eq_some'] at h
    obtain ⟨x, -, hx⟩ := h; cases hx
  | some .san =>
    rw [hf] at h; simp only [Option.map_eq_some'] at h
    obtain ⟨x, -, hx⟩ := h
    injection hx with e1 e2
    exact ⟨findHandler_san hf, e1.symm⟩
  | some .nc =>
    rw [hf] at h; simp only [Option.map_eq_some'] at h
    obtain ⟨x, -, hx⟩ := h; cases hx
  | some .policies =>
    rw [hf] at h; simp only [Option.map_eq_some'] at h
    obtain ⟨x, -, hx⟩ := h; cases hx
  | some .pc =>
    rw [hf] at h; simp only [Option.map_eq_some'] at h
    obtain ⟨x, -, hx⟩ := h; cases hx
  | some .pm =>
    rw [hf] at h; simp only [Option.map_eq_some'] at h
    obtain ⟨x, -, hx⟩ := h; cases hx
  | some .iap =>
    rw [hf] at h; simp only [Option.map_eq_some'] at h
    obtain ⟨x, -, hx⟩ := h; cases hx
  | some .aia =>
    rw [hf] at h; simp only [Option.map_eq_some'] at h
    obtain ⟨x, -, hx⟩ := h; cases hx
  | some .aki =>
    rw [hf] at h; simp only [Option.map_eq_some'] at h
    obtain ⟨x, -, hx⟩ := h; cases hx
  | some .ski =>
    rw [hf] at h; simp only [Option.map_eq_some'] at h
    obtain ⟨x, -, hx⟩ := h; cases hx

theorem applyResult_san_of_ne (st : CertExtState) (d : HandlerResult)
    (hd : ∀ raw v, d ≠ .san raw v) :
    (applyResult st d).subject_alt_names_ = st.subject_alt_names_ ∧
      (applyResult st d).subject_alt_names_extension_ =
        st.subject_alt_names_extension_ := by
  cases d
  case san raw v => exact absurd rfl (hd raw v)
  all_goals exact ⟨rfl, rfl⟩

/-- Either the dispatched extension was the SubjectAltName one, or the two
SAN members pass through `dispatchOne` unchanged. -/
theorem dispatchOne_san_fields {st st' : CertExtState} {e : ParsedExtension}
    (h : dispatchOne st e = some st') :
    e.oid = kSubjectAltNameOid ∨
      (st'.subject_alt_names_ = st.subject_alt_names_ ∧
        st'.subject_alt_names_extension_ = st.subject_alt_names_extension_) := by
  unfold dispatchOne at h
  match hl : lookupExt st.extensions_ e.oid with
  | some _ => rw [hl] at h; simp at h
  | none =>
    rw [hl] at h
    unfold applyHandler at h
    simp only [Option.map_eq_some'] at h
    obtain ⟨d, hd, hst'⟩ := h
    by_cases hsan : ∃ raw v, d = HandlerResult.san raw v
    · obtain ⟨raw, v, rfl⟩ := hsan
      exact Or.inl (runHandler_san_inv hd).1
    · push_neg at hsan
      obtain ⟨hs1, hs2⟩ := applyResult_san_of_ne _ d (fun raw v => hsan raw v)
      rw [← hst']
      exact Or.inr ⟨hs1, hs2⟩

/-- The SubjectAltName bookkeeping invariant preserved by the dispatcher:
whenever either SAN member has been set, the SAN OID is in the map. -/
def SanInv (st : CertExtState) : Prop :=
  (st.subject_alt_names_ ≠ none ∨ st.subject_alt_names_extension_ ≠ {}) →
    lookupExt st.extensions_ kSubjectAltNameOid ≠ none

theorem dispatchOne_sanInv {st st' : CertExtState} {e : ParsedExtension}
    (h : dispatchOne st e = some st') (inv : SanInv st) : SanInv st' := by
  obtain ⟨hnone, hext⟩ := dispatchOne_extensions h
  rcases dispatchOne_san_fields h with hoid | ⟨hs1, hs2⟩
  · intro _triggered
    rw [hext, ← hoid, lookupExt_append_self e hnone]
    simp
  · intro htrig
    rw [hs1, hs2] at htrig
    have hlook := inv htrig
    match hv : lookupExt st.extensions_ kSubjectAltNameOid with
    | none => exact absurd hv hlook
    | some v0 =>
      rw [hext, lookupExt_append_mono hv]
      simp

theorem dispatchAll_sanInv {es : List ParsedExtension} :
    ∀ {st st' : CertExtState}, dispatchAll st es = some st' →
      SanInv st → SanInv st' := by
  induction es with
  | nil =>
    intro st st' h inv
    simp only [dispatchAll, Option.some_inj] at h
    subst h; exact inv
  | cons e es ih =>
    intro st st' h inv
    simp only [dispatchAll] at h
    match hd : dispatchOne st e with
    | none => rw [hd] at h; simp at h
    | some st2 =>
      rw [hd] at h
      exact ih h (dispatchOne_sanInv hd inv)

/-! ## Name normalizer (§4.6)

Modelled from the spec: canonicalize each AttributeValue of a
`Name ::= SEQUENCE OF RDN`, folding the five directory-string types to a
case-folded, whitespace-collapsed UTF8String; other types pass through
byte-for-byte. The stored normalized form omits the outer SEQUENCE tag. -/

/-- Modelled from the spec: the five foldable directory-string tags —
PrintableString (19), UTF8String (12), BMPString (30), UniversalString (28),
T61String (20). -/
def isFoldable (tag : Nat) : Bool :=
  tag = 19 ∨ tag = 12 ∨ tag = 30 ∨ tag = 28 ∨ tag = 20

/-- Modelled from the spec: the case-folding step of the directory-string
matching rule. -/
def caseFold (c : Nat) : Nat :=
  if 65 ≤ c ∧ c ≤ 90 then c + 32 else c

/-- Modelled from the spec: collapse runs of whitespace to one space; the
`pending` flag records a run awaiting a following non-space. -/
def collapseGo : Bool → List Nat → List Nat
  | _, [] => []
  | pending, c :: r =>
    if c = 32 then collapseGo true r
    else (if pending then [32, c] else [c]) ++ collapseGo false r

/-- Modelled from the spec: trim leading/trailing whitespace and collapse
interior runs to a single space. -/
def collapseTrim (l : List Nat) : List Nat :=
  collapseGo false (l.dropWhile (fun c => c == 32))

/-- UTF-8 bytes of one code point. -/
def utf8Char (c : Nat) : List Nat :=
  if c < 128 then [c]
  else if c < 2048 then [192 + c / 64, 128 + c % 64]
  else if c < 65536 then [224 + c / 4096, 128 + (c / 64) % 64, 128 + c % 64]
  else [240 + c / 262144, 128 + (c / 4096) % 64, 128 + (c / 64) % 64,
        128 + c % 64]

/-- UTF-8 encoding of a code-point list. -/
def encodeUTF8 (l : List Nat) : List Nat := (l.map utf8Char).flatten

/-- Modelled from the spec: UTF-8 decoding with continuation-byte checks;
fuel bounds the recursion (`fuel = input length` suffices). -/
def decodeUTF8 : Nat → List Nat → Option (List Nat)
  | _, [] => some []
  | 0, _ :: _ => none
  | fuel + 1, b :: rest =>
    if b < 128 then (decodeUTF8 fuel rest).map (b :: ·)
    else if 194 ≤ b ∧ b ≤ 223 then
      match rest with
      | c1 :: r2 =>
        if 128 ≤ c1 ∧ c1 < 192 then
          (decodeUTF8 fuel r2).map (fun l => ((b - 192) * 64 + (c1 - 128)) :: l)
        else none
      | [] => none
    else if 224 ≤ b ∧ b ≤ 239 then
      match rest with
      | c1 :: c2 :: r2 =>
        if (128 ≤ c1 ∧ c1 < 192) ∧ (128 ≤ c2 ∧ c2 < 192) then
          (decodeUTF8 fuel r2).map
            (fun l => ((b - 224) * 4096 + (c1 - 128) * 64 + (c2 - 128)) :: l)
        else none
      | _ => none
    else if 240 ≤ b ∧ b ≤ 244 then
      match rest with
      | c1 :: c2 :: c3 :: r2 =>
        if (128 ≤ c1 ∧ c1 < 192) ∧ (128 ≤ c2 ∧ c2 < 192) ∧
           (128 ≤ c3 ∧ c3 < 192) then
          (decodeUTF8 fuel r2).map
            (fun l => ((b - 240) * 262144 + (c1 - 128) * 4096 + (c2 - 128) * 64 +
              (c3 - 128)) :: l)
        else none
      | _ => none
    else none

/-- Modelled from the spec: big-endian UCS-2 decoding of a BMPString. -/
def decodeBMP : List Nat → Option (List Nat)
  | [] => some []
  | b1 :: b2 :: r =>
    if b1 < 256 ∧ b2 < 256 then
      (decodeBMP r).map (fun l => (b1 * 256 + b2) :: l)
    else none
  | [_] => none

/-- Modelled from the spec: big-endian UCS-4 decoding of a UniversalString,
bounded to the Unicode range. -/
def decodeUniversal : List Nat → Option (List Nat)
  | [] => some []
  | b1 :: b2 :: b3 :: b4 :: r =>
    if b1 < 256 ∧ b2 < 256 ∧ b3 < 256 ∧ b4 < 256 ∧
       b1 * 16777216 + b2 * 65536 + b3 * 256 + b4 < 1114112 then
      (decodeUniversal r).map
        (fun l => (b1 * 16777216 + b2 * 65536 + b3 * 256 + b4) :: l)
    else none
  | _ => none

/-- Modelled from the spec: decode a foldable directory string to code
points; PrintableString/T61String bytes are taken as Latin-1 code points. -/
def decodeString (tag : Nat) (c : List Nat) : Option (List Nat) :=
  if tag = 19 ∨ tag = 20 then some c
  else if tag = 12 then decodeUTF8 c.length c
  else if tag = 30 then decodeBMP c
  else if tag = 28 then decodeUniversal c
  else none

/-- Modelled from the spec: the canonical folded code-point form of a
foldable AttributeValue — decode, case-fold, collapse and trim
whitespace. -/
def foldValue (tag : Nat) (c : List Nat) : Option (List Nat) :=
  (decodeString tag c).map (fun cps => collapseTrim (cps.map caseFold))

/-- One AttributeTypeAndValue: the attribute-type OID TLV and the value's
tag and contents. -/
structure ATV where
  oidTlv : List Nat := []
  tag : Nat := 0
  value : List Nat := []
deriving DecidableEq, Repr, Inhabited

/-- Modelled from the spec: parse one AttributeTypeAndValue — `SEQUENCE
{ type OID, value ANY }`, consumed exactly. -/
def parseATV (b : List Nat) : Option (ATV × List Nat) :=
  match expectTLV 48 b with
  | none => none
  | some (ab, r) =>
    match expectTLV 6 ab with
    | none => none
    | some (oid, r1) =>
      if oid = [] then none else
      match readTLV r1 with
      | some (vt, vc, vr) =>
        if vr = [] then some (⟨mkTLV 6 oid, vt, vc⟩, r) else none
      | none => none

/-- Modelled from the spec: parse one RDN — a non-empty `SET OF
AttributeTypeAndValue`; attributes are NOT reordered. -/
def parseRDN (b : List Nat) : Option (List ATV × List Nat) :=
  match expectTLV 49 b with
  | none => none
  | some (sb, r) =>
    match iterParse parseATV (sb.length + 1) sb with
    | some atvs => if atvs = [] then none else some (atvs, r)
    | none => none

/-- Modelled from the spec: parse the RDN sequence of a Name body. -/
def parseNameRdns (body : List Nat) : Option (List (List ATV)) :=
  iterParse parseRDN (body.length + 1) body

/-- Modelled from the spec: parse a full Name TLV (outer SEQUENCE) into its
RDNs. -/
def parseNameTlv (tlv : List Nat) : Option (List (List ATV)) :=
  match expectTLV 48 tlv with
  | some (body, rest) => if rest = [] then parseNameRdns body else none
  | none => none

/-- Modelled from the spec: rewrite one AttributeValue — foldable types
become a folded UTF8String (tag 12); IA5String/NumericString and all other
types are preserved byte-for-byte under their original tag. -/
def normalizeATV (a : ATV) : Option (List Nat) :=
  if isFoldable a.tag then
    (foldValue a.tag a.value).map
      (fun f => mkTLV 48 (a.oidTlv ++ mkTLV 12 (encodeUTF8 f)))
  else some (mkTLV 48 (a.oidTlv ++ mkTLV a.tag a.value))

/-- Modelled from the spec: re-encode one RDN SET around its normalized
attributes. -/
def normalizeRDN (atvs : List ATV) : Option (List Nat) :=
  (atvs.mapM normalizeATV).map (fun l => mkTLV 49 l.flatten)

/-- Modelled from the spec: the normalized Name — the concatenated
normalized RDNs, without the outer SEQUENCE tag. -/
def normalizeName (tlv : List Nat) : Option (List Nat) :=
  match parseNameTlv tlv with
  | some rdns => (rdns.mapM normalizeRDN).map List.flatten
  | none => none

/-! ## The directory-string matching rule (§4.6)

Modelled from the spec: two DNs are equivalent when they have the same
attributes in the same arrangement, and corresponding values are either
byte-identical or both foldable with the same folded form. -/

/-- Pointwise equivalence of two lists under an element test. -/
def listEquivB {α : Type} (f : α → α → Bool) : List α → List α → Bool
  | [], [] => true
  | a :: as, b :: bs => f a b && listEquivB f as bs
  | _, _ => false

/-- Modelled from the spec: equivalence of two AttributeTypeAndValues under
the directory-string matching rule. -/
def atvEquivB (a b : ATV) : Bool :=
  decide (a.oidTlv = b.oidTlv) &&
    ((decide (a.tag = b.tag) && decide (a.value = b.value)) ||
     (isFoldable a.tag && isFoldable b.tag &&
      match foldValue a.tag a.value, foldValue b.tag b.value with
      | some x, some y => decide (x = y)
      | _, _ => false))

/-- Modelled from the spec: equivalence of two Name TLVs — both parse and
their RDNs are pointwise equivalent. -/
def nameEquivB (t1 t2 : List Nat) : Bool :=
  match parseNameTlv t1, parseNameTlv t2 with
  | some r1, some r2 => listEquivB (listEquivB atvEquivB) r1 r2
  | _, _ => false

theorem normalizeATV_congr {a b : ATV} (h : atvEquivB a b = true) :
    normalizeATV a = normalizeATV b := by
  unfold atvEquivB at h
  simp only [Bool.and_eq_true, Bool.or_eq_true, decide_eq_true_eq] at h
  obtain ⟨hoid, hrest⟩ := h
  rcases hrest with ⟨htag, hval⟩ | hfold
  · obtain ⟨o1, t1, v1⟩ := a
    obtain ⟨o2, t2, v2⟩ := b
    simp only at hoid htag hval
    subst hoid; subst htag; subst hval
    rfl
  · obtain ⟨⟨hfa, hfb⟩, hmatch⟩ := hfold
    have heq : foldValue a.tag a.value = foldValue b.tag b.value ∧
        (foldValue a.tag a.value).isSome := by
      match h1 : foldValue a.tag a.value, h2 : foldValue b.tag b.value with
      | some x, some y =>
        rw [h1, h2] at hmatch
        simp at hmatch
        subst hmatch
        exact ⟨rfl, rfl⟩
      | some x, none => rw [h1, h2] at hmatch; simp at hmatch
      | none, _ => rw [h1] at hmatch; simp at hmatch
    unfold normalizeATV
    rw [if_pos hfa, if_pos hfb, heq.1, hoid]

theorem mapM_congr_of_listEquivB {α β : Type} {f : α → α → Bool}
    {g : α → Option β} (hg : ∀ a b, f a b = true → g a = g b) :
    ∀ as bs, listEquivB f as bs = true → as.mapM g = bs.mapM g := by
  intro as
  induction as with
  | nil =>
    intro bs h
    match bs with
    | [] => rfl
    | b :: bs2 => simp [listEquivB] at h
  | cons a as2 ih =>
    intro bs h
    match bs with
    | [] => simp [listEquivB] at h
    | b :: bs2 =>
      simp only [listEquivB, Bool.and_eq_true] at h
      obtain ⟨h1, h2⟩ := h
      simp only [List.mapM_cons, hg a b h1, ih bs2 h2]

theorem normalizeRDN_congr {as bs : List ATV}
    (h : listEquivB atvEquivB as bs = true) :
    normalizeRDN as = normalizeRDN bs := by
  unfold normalizeRDN
  rw [mapM_congr_of_listEquivB (fun a b hab => normalizeATV_congr hab) as bs h]

theorem normalizeName_congr {t1 t2 : List Nat} (h : nameEquivB t1 t2 = true) :
    normalizeName t1 = normalizeName t2 := by
  unfold nameEquivB at h
  match h1 : parseNameTlv t1, h2 : parseNameTlv t2 with
  | some r1, some r2 =>
    rw [h1, h2] at h
    dsimp only at h
    unfold normalizeName
    rw [h1, h2]
    dsimp only
    rw [mapM_congr_of_listEquivB (fun a b hab => normalizeRDN_congr hab) r1 r2 h]
  | some r1, none => rw [h1, h2] at h; simp at h
  | none, _ => rw [h1] at h; simp at h

/-! ## TBS parser (§4.3) and certificate shell (§4.2) -/

/-- Modelled from the spec: the `[0] EXPLICIT Version` reader — when the
`[0]` wrapper (tag 160) is absent the version defaults to v1; an encoded
value other than 0/1/2 (v1/v2/v3) is unsupported. -/
def parseVersion (b : List Nat) : Option (Nat × List Nat) :=
  if headIs 160 b then
    match expectTLV 160 b with
    | some (vb, r) =>
      match expectTLV 2 vb with
      | some (ic, rest) =>
        if rest = [] then
          match parseIntNonNeg ic with
          | some v => if v ≤ 2 then some (v + 1, r) else none
          | none => none
        else none
      | none => none
    | none => none
  else some (1, b)

/-- Modelled from the spec: the Validity reader — a SEQUENCE of two time
TLVs (UTCTime 23 or GeneralizedTime 24), kept as the opaque tokens the
verifier interprets. -/
def parseValidity (b : List Nat) :
    Option ((List Nat × List Nat) × List Nat) :=
  match expectTLV 48 b with
  | none => none
  | some (vb, r) =>
    match readTLV vb with
    | some (t1, c1, vr) =>
      if t1 = 23 ∨ t1 = 24 then
        match readTLV vr with
        | some (t2, c2, vr2) =>
          if (t2 = 23 ∨ t2 = 24) ∧ vr2 = [] then
            some ((mkTLV t1 c1, mkTLV t2 c2), r)
          else none
        | none => none
      else none
    | none => none

/-- Modelled from the spec: the `[3] EXPLICIT extensions` step of the TBS
tail (tag 163, wrapping one SEQUENCE kept as a TLV); nothing may follow. -/
def parseExtTail (u1 u2 : Option (List Nat)) (r2 : List Nat) :
    Option (Option (List Nat) × Option (List Nat) × Option (List Nat)) :=
  if r2 = [] then some (u1, u2, none)
  else if headIs 163 r2 then
    match expectTLV 163 r2 with
    | some (ec, r3) =>
      match expectTLV 48 ec with
      | some (ebody, erest) =>
        if r3 = [] ∧ erest = [] then
          some (u1, u2, some (mkTLV 48 ebody))
        else none
      | none => none
    | none => none
  else none

/-- Modelled from the spec: the optional TBS tail — `[1] IMPLICIT
issuerUniqueID` (tag 129), `[2] IMPLICIT subjectUniqueID` (tag 130),
then the extensions step. -/
def parseTbsTail (b : List Nat) :
    Option (Option (List Nat) × Option (List Nat) × Option (List Nat)) :=
  let u1Step : Option (Option (List Nat) × List Nat) :=
    if headIs 129 b then
      match expectTLV 129 b with
      | some (c, r) => some (some c, r)
      | none => none
    else some (none, b)
  match u1Step with
  | none => none
  | some (u1, r1) =>
    let u2Step : Option (Option (List Nat) × List Nat) :=
      if headIs 130 r1 then
        match expectTLV 130 r1 with
        | some (c, r) => some (some c, r)
        | none => none
      else some (none, r1)
    match u2Step with
    | none => none
    | some (u2, r2) => parseExtTail u1 u2 r2

/-- Modelled from the spec: whether a serial INTEGER is acceptable —
non-empty, and inside the DER-canonical range unless
`allow_invalid_serial_numbers` is set. -/
def serialOk (allow : Bool) (s : List Nat) : Bool :=
  match s with
  | [] => false
  | _ :: _ => allow || intMinimal s

/-- Modelled from the spec: the TBS parser (C3) — fields in order with the
version-gated rules: UniqueIDs only on v2/v3, extensions only on v3. -/
def ParseTbsCertificate (b : List Nat) (opts : ParseCertificateOptions) :
    Option ParsedTbsCertificate :=
  match parseVersion b with
  | none => none
  | some (version, r0) =>
    match expectTLV 2 r0 with
    | none => none
    | some (serial, r1) =>
      if serialOk opts.allow_invalid_serial_numbers serial = false then none
      else
        match expectTLV 48 r1 with
        | none => none
        | some (sigC, r2) =>
          match expectTLV 48 r2 with
          | none => none
          | some (issC, r3) =>
            match parseValidity r3 with
            | none => none
            | some ((nb, na), r4) =>
              match expectTLV 48 r4 with
              | none => none
              | some (subC, r5) =>
                match expectTLV 48 r5 with
                | none => none
                | some (spkiC, r6) =>
                  match parseTbsTail r6 with
                  | none => none
                  | some (u1, u2, ext) =>
                    if (u1.isSome ∨ u2.isSome) ∧ version < 2 then none
                    else if ext.isSome ∧ version ≠ 3 then none
                    else
                      some { version := version,
                             serial_number := serial,
                             signature_algorithm_tlv := mkTLV 48 sigC,
                             issuer_tlv := mkTLV 48 issC,
                             validity_not_before := nb,
                             validity_not_after := na,
                             subject_tlv := mkTLV 48 subC,
                             spki_tlv := mkTLV 48 spkiC,
                             issuer_unique_id := u1,
                             subject_unique_id := u2,
                             extensions_tlv := ext }

/-- Modelled from the spec: the external signature-algorithm descriptor
parser, applied to the contents of the outer AlgorithmIdentifier SEQUENCE. -/
def parseSignatureAlgorithm (c : List Nat) : Option SignatureAlgorithm :=
  match expectTLV 6 c with
  | some (oid, params) => if oid = [] then none else some ⟨oid, params⟩
  | none => none

/-! ## The ParsedCertificate aggregate (§4.7) -/

/-- The aggregate of `parsed_certificate.h`: backing bytes, raw slices, the
TBS fields, the signature-algorithm descriptor, the normalized names, and
the decoded-extension state. Field names mirror the C++ private members. -/
structure ParsedCertificate extends CertExtState where
  cert_data_ : List Nat := []
  cert_ : List Nat := []
  tbs_certificate_tlv_ : List Nat := []
  signature_algorithm_tlv_ : List Nat := []
  signature_value_ : BitString := {}
  tbs_ : ParsedTbsCertificate := {}
  signature_algorithm_ : Option SignatureAlgorithm := none
  normalized_subject_ : List Nat := []
  normalized_issuer_ : List Nat := []
deriving DecidableEq, Repr, Inhabited

namespace ParsedCertificate

/-- Assemble the aggregate from the construction pipeline's outputs. -/
def assembleCert (bytes certBody tbsC algC : List Nat) (sigVal : BitString)
    (tbs : ParsedTbsCertificate) (sa : SignatureAlgorithm) (ni ns : List Nat)
    (st : CertExtState) : ParsedCertificate :=
  { toCertExtState := st,
    cert_data_ := bytes,
    cert_ := mkTLV 48 certBody,
    tbs_certificate_tlv_ := mkTLV 48 tbsC,
    signature_algorithm_tlv_ := mkTLV 48 algC,
    signature_value_ := sigVal,
    tbs_ := tbs,
    signature_algorithm_ := some sa,
    normalized_subject_ := ns,
    normalized_issuer_ := ni }

/-- Modelled from the spec: `Create` — the construction pipeline: shell
split (§4.2), TBS parse (§4.3), outer signature-algorithm parse, name
normalization (§4.6), and the extension walk (§4.4). `none` is the C++
`nullptr` result. -/
def Create (bytes : List Nat) (opts : ParseCertificateOptions) :
    Option ParsedCertificate :=
  match expectTLV 48 bytes with
  | none => none
  | some (certBody, trail) =>
    if trail ≠ [] then none else
    match expectTLV 48 certBody with
    | none => none
    | some (tbsC, r1) =>
      match expectTLV 48 r1 with
      | none => none
      | some (algC, r2) =>
        match expectTLV 3 r2 with
        | none => none
        | some (sigC, r3) =>
          if r3 ≠ [] then none else
          match parseBitString sigC with
          | none => none
          | some sigVal =>
            match ParseTbsCertificate tbsC opts with
            | none => none
            | some tbs =>
              match parseSignatureAlgorithm algC with
              | none => none
              | some sa =>
                match normalizeName tbs.issuer_tlv with
                | none => none
                | some ni =>
                  match normalizeName tbs.subject_tlv with
                  | none => none
                  | some ns =>
                    match tbs.extensions_tlv with
                    | none =>
                      some (assembleCert bytes certBody tbsC algC sigVal
                        tbs sa ni ns {})
                    | some etlv =>
                      match expectTLV 48 etlv with
                      | none => none
                      | some (ebody, erest) =>
                        if erest ≠ [] then none else
                        match parseExtensionList ebody with
                        | none => none
                        | some exts =>
                          if exts = [] then none else
                          match dispatchAll {} exts with
                          | none => none
                          | some st =>
                            some (assembleCert bytes certBody tbsC algC
                              sigVal tbs sa ni ns st)

/-- Modelled from the spec: `CreateAndAddToVector` — parse and append to the
chain on success; leave the chain untouched on failure. The Bool result and
the resulting chain are returned as a pair. -/
def CreateAndAddToVector (bytes : List Nat) (opts : ParseCertificateOptions)
    (chain : List ParsedCertificate) : Bool × List ParsedCertificate :=
  match Create bytes opts with
  | some cert => (true, chain ++ [cert])
  | none => (false, chain)

/-! Accessors, translated from the inline bodies in `parsed_certificate.h`.
A `DCHECK(p)` before returning a member is modelled by an `Option` result
that is `none` exactly when `p` fails. -/

def der_cert (c : ParsedCertificate) : List Nat := c.cert_

def tbs_certificate_tlv (c : ParsedCertificate) : List Nat :=
  c.tbs_certificate_tlv_

def signature_algorithm_tlv (c : ParsedCertificate) : List Nat :=
  c.signature_algorithm_tlv_

def signature_value (c : ParsedCertificate) : BitString := c.signature_value_

def tbs (c : ParsedCertificate) : ParsedTbsCertificate := c.tbs_

def signature_algorithm (c : ParsedCertificate) : Option SignatureAlgorithm :=
  c.signature_algorithm_

def subject_tlv (c : ParsedCertificate) : List Nat := c.tbs_.subject_tlv

def normalized_subject (c : ParsedCertificate) : List Nat :=
  c.normalized_subject_

def issuer_tlv (c : ParsedCertificate) : List Nat := c.tbs_.issuer_tlv

def normalized_issuer (c : ParsedCertificate) : List Nat :=
  c.normalized_issuer_

def has_basic_constraints (c : ParsedCertificate) : Bool :=
  c.has_basic_constraints_

def basic_constraints (c : ParsedCertificate) :
    Option ParsedBasicConstraints :=
  if c.has_basic_constraints_ then some c.basic_constraints_ else none

def has_key_usage (c : ParsedCertificate) : Bool := c.has_key_usage_

def key_usage (c : ParsedCertificate) : Option BitString :=
  if c.has_key_usage_ then some c.key_usage_ else none

def has_extended_key_usage (c : ParsedCertificate) : Bool :=
  c.has_extended_key_usage_

def extended_key_usage (c : ParsedCertificate) : Option (List (List Nat)) :=
  if c.has_extended_key_usage_ then some c.extended_key_usage_ else none

def has_subject_alt_names (c : ParsedCertificate) : Bool :=
  c.subject_alt_names_.isSome

def subject_alt_names_extension (c : ParsedCertificate) : ParsedExtension :=
  c.subject_alt_names_extension_

def subject_alt_names (c : ParsedCertificate) : Option GeneralNames :=
  c.subject_alt_names_

def has_name_constraints (c : ParsedCertificate) : Bool :=
  c.name_constraints_.isSome

def name_constraints (c : ParsedCertificate) : Option NameConstraints :=
  c.name_constraints_

def has_authority_info_access (c : ParsedCertificate) : Bool :=
  c.has_authority_info_access_

def authority_info_access_extension (c : ParsedCertificate) :
    ParsedExtension := c.authority_info_access_extension_

def ca_issuers_uris (c : ParsedCertificate) : List (List Nat) :=
  c.ca_issuers_uris_

def ocsp_uris (c : ParsedCertificate) : List (List Nat) := c.ocsp_uris_

def has_policy_oids (c : ParsedCertificate) : Bool := c.has_policy_oids_

def policy_oids (c : ParsedCertificate) : Option (List (List Nat)) :=
  if c.has_policy_oids_ then some c.policy_oids_ else none

def has_policy_constraints (c : ParsedCertificate) : Bool :=
  c.has_policy_constraints_

def policy_constraints (c : ParsedCertificate) :
    Option ParsedPolicyConstraints :=
  if c.has_policy_constraints_ then some c.policy_constraints_ else none

def has_policy_mappings (c : ParsedCertificate) : Bool :=
  c.has_policy_mappings_

def policy_mappings (c : ParsedCertificate) :
    Option (List ParsedPolicyMapping) :=
  if c.has_policy_mappings_ then some c.policy_mappings_ else none

def has_inhibit_any_policy (c : ParsedCertificate) : Bool :=
  c.has_inhibit_any_policy_

def inhibit_any_policy (c : ParsedCertificate) : Option Nat :=
  if c.has_inhibit_any_policy_ then some c.inhibit_any_policy_ else none

def authority_key_identifier (c : ParsedCertificate) :
    Option ParsedAuthorityKeyIdentifier := c.authority_key_identifier_

def subject_key_identifier (c : ParsedCertificate) : Option (List Nat) :=
  c.subject_key_identifier_

def extensions (c : ParsedCertificate) :
    List (List Nat × ParsedExtension) := c.extensions_

def GetExtension (c : ParsedCertificate) (extension_oid : List Nat) :
    Option ParsedExtension := lookupExt c.extensions_ extension_oid

end ParsedCertificate

/-! ## Destructuring the construction pipeline -/

theorem Create_cases {bytes : List Nat} {opts : ParseCertificateOptions}
    {c : ParsedCertificate}
    (h : ParsedCertificate.Create bytes opts = some c) :
    ∃ certBody tbsC r1 algC r2 sigC sigVal tbs sa ni ns st,
      expectTLV 48 bytes = some (certBody, []) ∧
      expectTLV 48 certBody = some (tbsC, r1) ∧
      expectTLV 48 r1 = some (algC, r2) ∧
      expectTLV 3 r2 = some (sigC, []) ∧
      parseBitString sigC = some sigVal ∧
      ParseTbsCertificate tbsC opts = some tbs ∧
      parseSignatureAlgorithm algC = some sa ∧
      normalizeName tbs.issuer_tlv = some ni ∧
      normalizeName tbs.subject_tlv = some ns ∧
      ((tbs.extensions_tlv = none ∧ st = ({} : CertExtState)) ∨
        (∃ etlv ebody exts, tbs.extensions_tlv = some etlv ∧
          expectTLV 48 etlv = some (ebody, []) ∧
          parseExtensionList ebody = some exts ∧ exts ≠ [] ∧
          dispatchAll {} exts = some st)) ∧
      c = ParsedCertificate.assembleCert bytes certBody tbsC algC sigVal
            tbs sa ni ns st := by
  unfold ParsedCertificate.Create at h
  match h1 : expectTLV 48 bytes with
  | none => rw [h1] at h; simp at h
  | some (certBody, trail) =>
    rw [h1] at h
    dsimp only at h
    by_cases htr : trail = []
    case neg => rw [if_pos htr] at h; simp at h
    case pos =>
    subst htr
    rw [if_neg (not_not_intro rfl)] at h
    match h2 : expectTLV 48 certBody with
    | none => rw [h2] at h; simp at h
    | some (tbsC, r1) =>
      rw [h2] at h
      dsimp only at h
      match h3 : expectTLV 48 r1 with
      | none => rw [h3] at h; simp at h
      | some (algC, r2) =>
        rw [h3] at h
        dsimp only at h
        match h4 : expectTLV 3 r2 with
        | none => rw [h4] at h; simp at h
        | some (sigC, r3) =>
          rw [h4] at h
          dsimp only at h
          by_cases hr3 : r3 = []
          case neg => rw [if_pos hr3] at h; simp at h
          case pos =>
          subst hr3
          rw [if_neg (not_not_intro rfl)] at h
          match h5 : parseBitString sigC with
          | none => rw [h5] at h; simp at h
          | some sigVal =>
            rw [h5] at h
            dsimp only at h
            match h6 : ParseTbsCertificate tbsC opts with
            | none => rw [h6] at h; simp at h
            | some tbs =>
              rw [h6] at h
              dsimp only at h
              match h7 : parseSignatureAlgorithm algC with
              | none => rw [h7] at h; simp at h
              | some sa =>
                rw [h7] at h
                dsimp only at h
                match h8 : normalizeName tbs.issuer_tlv with
                | none => rw [h8] at h; simp at h
                | some ni =>
                  rw [h8] at h
                  dsimp only at h
                  match h9 : normalizeName tbs.subject_tlv with
                  | none => rw [h9] at h; simp at h
                  | some ns =>
                    rw [h9] at h
                    dsimp only at h
                    match hext : tbs.extensions_tlv with
                    | none =>
                      rw [hext] at h
                      dsimp only at h
                      rw [Option.some_inj] at h
                      exact ⟨certBody, tbsC, r1, algC, r2, sigC, sigVal,
                        tbs, sa, ni, ns, {}, rfl, h2, h3, h4, h5, h6, h7,
                        h8, h9, Or.inl ⟨hext, rfl⟩, h.symm⟩
                    | some etlv =>
                      rw [hext] at h
                      dsimp only at h
                      match h10 : expectTLV 48 etlv with
                      | none => rw [h10] at h; simp at h
                      | some (ebody, erest) =>
                        rw [h10] at h
                        dsimp only at h
                        by_cases her : erest = []
                        case neg => rw [if_pos her] at h; simp at h
                        case pos =>
                        subst her
                        rw [if_neg (not_not_intro rfl)] at h
                        match h11 : parseExtensionList ebody with
                        | none => rw [h11] at h; simp at h
                        | some exts =>
                          rw [h11] at h
                          dsimp only at h
                          by_cases hne : exts = []
                          case pos => rw [if_pos hne] at h; simp at h
                          case neg =>
                          rw [if_neg hne] at h
                          match h12 : dispatchAll {} exts with
                          | none => rw [h12] at h; simp at h
                          | some st =>
                            rw [h12] at h
                            dsimp only at h
                            rw [Option.some_inj] at h
                            exact ⟨certBody, tbsC, r1, algC, r2, sigC,
                              sigVal, tbs, sa, ni, ns, st, rfl, h2, h3, h4,
                              h5, h6, h7, h8, h9,
                              Or.inr ⟨etlv, ebody, exts, hext, h10, h11,
                                hne, h12⟩, h.symm⟩

theorem ParseTbs_cases {b : List Nat} {opts : ParseCertificateOptions}
    {t : ParsedTbsCertificate} (h : ParseTbsCertificate b opts = some t) :
    ∃ version r0 serial r1 sigC r2 issC r3 nb na r4 subC r5 spkiC r6 u1 u2 ext,
      parseVersion b = some (version, r0) ∧
      expectTLV 2 r0 = some (serial, r1) ∧
      serialOk opts.allow_invalid_serial_numbers serial = true ∧
      expectTLV 48 r1 = some (sigC, r2) ∧
      expectTLV 48 r2 = some (issC, r3) ∧
      parseValidity r3 = some ((nb, na), r4) ∧
      expectTLV 48 r4 = some (subC, r5) ∧
      expectTLV 48 r5 = some (spkiC, r6) ∧
      parseTbsTail r6 = some (u1, u2, ext) ∧
      ¬((u1.isSome ∨ u2.isSome) ∧ version < 2) ∧
      ¬(ext.isSome ∧ version ≠ 3) ∧
      t = { version := version, serial_number := serial,
            signature_algorithm_tlv := mkTLV 48 sigC,
            issuer_tlv := mkTLV 48 issC,
            validity_not_before := nb, validity_not_after := na,
            subject_tlv := mkTLV 48 subC, spki_tlv := mkTLV 48 spkiC,
            issuer_unique_id := u1, subject_unique_id := u2,
            extensions_tlv := ext } := by
  unfold ParseTbsCertificate at h
  match h1 : parseVersion b with
  | none => rw [h1] at h; simp at h
  | some (version, r0) =>
    rw [h1] at h
    dsimp only at h
    match h2 : expectTLV 2 r0 with
    | none => rw [h2] at h; simp at h
    | some (serial, r1) =>
      rw [h2] at h
      dsimp only at h
      match h2b : serialOk opts.allow_invalid_serial_numbers serial with
      | false => rw [h2b] at h; simp at h
      | true =>
        rw [h2b] at h
        rw [if_neg (by simp)] at h
        match h3 : expectTLV 48 r1 with
        | none => rw [h3] at h; simp at h
        | some (sigC, r2) =>
          rw [h3] at h
          dsimp only at h
          match h4 : expectTLV 48 r2 with
          | none => rw [h4] at h; simp at h
          | some (issC, r3) =>
            rw [h4] at h
            dsimp only at h
            match h5 : parseValidity r3 with
            | none => rw [h5] at h; simp at h
            | some ((nb, na), r4) =>
              rw [h5] at h
              dsimp only at h
              match h6 : expectTLV 48 r4 with
              | none => rw [h6] at h; simp at h
              | some (subC, r5) =>
                rw [h6] at h
                dsimp only at h
                match h7 : expectTLV 48 r5 with
                | none => rw [h7] at h; simp at h
                | some (spkiC, r6) =>
                  rw [h7] at h
                  dsimp only at h
                  match h8 : parseTbsTail r6 with
                  | none => rw [h8] at h; simp at h
                  | some (u1, u2, ext) =>
                    rw [h8] at h
                    dsimp only at h
                    by_cases hg1 : (u1.isSome ∨ u2.isSome) ∧ version < 2
                    case pos => rw [if_pos hg1] at h; simp at h
                    case neg =>
                    rw [if_neg hg1] at h
                    by_cases hg2 : ext.isSome ∧ version ≠ 3
                    case pos => rw [if_pos hg2] at h; simp at h
                    case neg =>
                    rw [if_neg hg2] at h
                    rw [Option.some_inj] at h
                    exact ⟨version, r0, serial, r1, sigC, r2, issC, r3, nb,
                      na, r4, subC, r5, spkiC, r6, u1, u2, ext, rfl, h2, h2b,
                      h3, h4, h5, h6, h7, h8, hg1, hg2, h.symm⟩

theorem parseVersion_suffix {b : List Nat} {v : Nat} {r : List Nat}
    (h : parseVersion b = some (v, r)) : r <:+ b := by
  unfold parseVersion at h
  by_cases hh : headIs 160 b = true
  · rw [if_pos hh] at h
    match h1 : expectTLV 160 b with
    | none => rw [h1] at h; simp at h
    | some (vb, r2) =>
      rw [h1] at h
      dsimp only at h
      match h2 : expectTLV 2 vb with
      | none => rw [h2] at h; simp at h
      | some (ic, rest) =>
        rw [h2] at h
        dsimp only at h
        by_cases hrest : rest = []
        · subst hrest
          rw [if_pos rfl] at h
          match h3 : parseIntNonNeg ic with
          | none => rw [h3] at h; simp at h
          | some vv =>
            rw [h3] at h
            dsimp only at h
            by_cases hv : vv ≤ 2
            · rw [if_pos hv, Option.some_inj] at h
              cases h
              exact readTLV_rest_suffix (expectTLV_eq h1)
            · rw [if_neg hv] at h; simp at h
        · rw [if_neg hrest] at h; simp at h
  · rw [if_neg hh, Option.some_inj] at h
    cases h
    exact List.suffix_refl _

theorem parseValidity_suffix {b : List Nat} {nb na : List Nat} {r : List Nat}
    (h : parseValidity b = some ((nb, na), r)) : r <:+ b := by
  unfold parseValidity at h
  match h1 : expectTLV 48 b with
  | none => rw [h1] at h; simp at h
  | some (vb, r0) =>
    rw [h1] at h
    dsimp only at h
    match h2 : readTLV vb with
    | none => rw [h2] at h; simp at h
    | some (t1, c1, vr) =>
      rw [h2] at h
      dsimp only at h
      by_cases ht1 : t1 = 23 ∨ t1 = 24
      · rw [if_pos ht1] at h
        match h3 : readTLV vr with
        | none => rw [h3] at h; simp at h
        | some (t2, c2, vr2) =>
          rw [h3] at h
          dsimp only at h
          by_cases ht2 : (t2 = 23 ∨ t2 = 24) ∧ vr2 = []
          · rw [if_pos ht2, Option.some_inj] at h
            cases h
            exact readTLV_rest_suffix (expectTLV_eq h1)
          · rw [if_neg ht2] at h; simp at h
      · rw [if_neg ht1] at h; simp at h

theorem parseExtTail_within {u1 u2 v1 v2 : Option (List Nat)}
    {r2 e : List Nat}
    (h : parseExtTail u1 u2 r2 = some (v1, v2, some e)) : e <:+: r2 := by
  unfold parseExtTail at h
  by_cases hr2 : r2 = []
  · rw [if_pos hr2, Option.some_inj] at h
    cases h
  · rw [if_neg hr2] at h
    by_cases hh : headIs 163 r2 = true
    · rw [if_pos hh] at h
      match h1 : expectTLV 163 r2 with
      | none => rw [h1] at h; simp at h
      | some (ec, r3) =>
        rw [h1] at h
        dsimp only at h
        match h2 : expectTLV 48 ec with
        | none => rw [h2] at h; simp at h
        | some (ebody, erest) =>
          rw [h2] at h
          dsimp only at h
          by_cases hg : r3 = [] ∧ erest = []
          · rw [if_pos hg, Option.some_inj] at h
            cases h
            exact ((readTLV_tlv_front (expectTLV_eq h2)).isInfix.trans
              (readTLV_content_within (expectTLV_eq h1)))
          · rw [if_neg hg] at h; simp at h
    · rw [if_neg hh] at h; simp at h

theorem parseTbsTail_cases {b : List Nat}
    {u1 u2 ext : Option (List Nat)}
    (h : parseTbsTail b = some (u1, u2, ext)) :
    ∀ e, ext = some e → e <:+: b := by
  intro e hext
  subst hext
  unfold parseTbsTail at h
  dsimp only at h
  by_cases hh1 : headIs 129 b = true
  case pos =>
    rw [if_pos hh1] at h
    match h1 : expectTLV 129 b with
    | none => rw [h1] at h; simp at h
    | some (c1, r1) =>
      rw [h1] at h
      dsimp only at h
      have hr1 : r1 <:+ b := readTLV_rest_suffix (expectTLV_eq h1)
      by_cases hh2 : headIs 130 r1 = true
      case pos =>
        rw [if_pos hh2] at h
        match h2 : expectTLV 130 r1 with
        | none => rw [h2] at h; simp at h
        | some (c2, r2) =>
          rw [h2] at h
          dsimp only at h
          have hr2 : r2 <:+ r1 := readTLV_rest_suffix (expectTLV_eq h2)
          exact (parseExtTail_within h).trans ((hr2.trans hr1).isInfix)
      case neg =>
        rw [if_neg hh2] at h
        dsimp only at h
        exact (parseExtTail_within h).trans hr1.isInfix
  case neg =>
    rw [if_neg hh1] at h
    dsimp only at h
    by_cases hh2 : headIs 130 b = true
    case pos =>
      rw [if_pos hh2] at h
      match h2 : expectTLV 130 b with
      | none => rw [h2] at h; simp at h
      | some (c2, r2) =>
        rw [h2] at h
        dsimp only at h
        exact (parseExtTail_within h).trans
          (readTLV_rest_suffix (expectTLV_eq h2)).isInfix
    case neg =>
      rw [if_neg hh2] at h
      dsimp only at h
      exact parseExtTail_within h

theorem ParseTbs_version_policy {b : List Nat} {opts : ParseCertificateOptions}
    {t : ParsedTbsCertificate} (h : ParseTbsCertificate b opts = some t) :
    ((t.issuer_unique_id.isSome ∨ t.subject_unique_id.isSome) →
      2 ≤ t.version) ∧
    (t.extensions_tlv.isSome → t.version = 3) := by
  obtain ⟨version, r0, serial, r1, sigC, r2, issC, r3, nb, na, r4, subC, r5,
    spkiC, r6, u1, u2, ext, -, -, -, -, -, -, -, -, -, hg1, hg2, hc⟩ :=
    ParseTbs_cases h
  subst hc
  dsimp only
  constructor
  · intro hu
    by_contra hlt
    exact hg1 ⟨hu, by omega⟩
  · intro he
    by_contra hne
    exact hg2 ⟨he, hne⟩

theorem ParseTbs_slices {b : List Nat} {opts : ParseCertificateOptions}
    {t : ParsedTbsCertificate} (h : ParseTbsCertificate b opts = some t) :
    t.issuer_tlv <:+: b ∧ t.subject_tlv <:+: b ∧ t.spki_tlv <:+: b ∧
      t.serial_number <:+: b ∧ t.signature_algorithm_tlv <:+: b ∧
      (∀ e, t.extensions_tlv = some e → e <:+: b) := by
  obtain ⟨version, r0, serial, r1, sigC, r2, issC, r3, nb, na, r4, subC, r5,
    spkiC, r6, u1, u2, ext, h1, h2, -, h3, h4, h5, h6, h7, h8, -, -, hc⟩ :=
    ParseTbs_cases h
  subst hc
  have hr0 : r0 <:+ b := parseVersion_suffix h1
  have hr1 : r1 <:+ r0 := readTLV_rest_suffix (expectTLV_eq h2)
  have hr2 : r2 <:+ r1 := readTLV_rest_suffix (expectTLV_eq h3)
  have hr3 : r3 <:+ r2 := readTLV_rest_suffix (expectTLV_eq h4)
  have hr4 : r4 <:+ r3 := parseValidity_suffix h5
  have hr5 : r5 <:+ r4 := readTLV_rest_suffix (expectTLV_eq h6)
  have hr6 : r6 <:+ r5 := readTLV_rest_suffix (expectTLV_eq h7)
  have hb1 : r1 <:+ b := hr1.trans hr0
  have hb2 : r2 <:+ b := hr2.trans hb1
  have hb3 : r3 <:+ b := hr3.trans hb2
  have hb4 : r4 <:+ b := hr4.trans hb3
  have hb5 : r5 <:+ b := hr5.trans hb4
  have hb6 : r6 <:+ b := hr6.trans hb5
  refine ⟨?_, ?_, ?_, ?_, ?_, ?_⟩
  · exact (readTLV_tlv_front (expectTLV_eq h4)).isInfix.trans hb2.isInfix
  · exact (readTLV_tlv_front (expectTLV_eq h6)).isInfix.trans hb4.isInfix
  · exact (readTLV_tlv_front (expectTLV_eq h7)).isInfix.trans hb5.isInfix
  · exact (readTLV_content_within (expectTLV_eq h2)).trans hr0.isInfix
  · exact (readTLV_tlv_front (expectTLV_eq h3)).isInfix.trans hb1.isInfix
  · intro e he
    exact (parseTbsTail_cases h8 e he).trans hb6.isInfix

theorem parseOneExtension_within {b : List Nat} {a : ParsedExtension}
    {r : List Nat} (h : parseOneExtension b = some (a, r)) :
    a.value <:+: b ∧ r <:+ b := by
  unfold parseOneExtension at h
  match h1 : expectTLV 48 b with
  | none => rw [h1] at h; simp at h
  | some (eb, r0) =>
    rw [h1] at h
    dsimp only at h
    match h2 : expectTLV 6 eb with
    | none => rw [h2] at h; simp at h
    | some (oid, r1) =>
      rw [h2] at h
      dsimp only at h
      by_cases hoid : oid = []
      case pos => rw [if_pos hoid] at h; simp at h
      case neg =>
      rw [if_neg hoid] at h
      have hebB : eb <:+: b := readTLV_content_within (expectTLV_eq h1)
      have hr1eb : r1 <:+ eb := readTLV_rest_suffix (expectTLV_eq h2)
      have hfin : ∀ (crit : Bool) (r2 : List Nat), r2 <:+ r1 →
          (match expectTLV 4 r2 with
            | some (val, r3) =>
              if r3 = [] then some (⟨oid, crit, val⟩, r0) else none
            | none => none) = some (a, r) → a.value <:+: b ∧ r <:+ b := by
        intro crit r2 hsub hm
        match h4 : expectTLV 4 r2 with
        | none => rw [h4] at hm; simp at hm
        | some (val, r3) =>
          rw [h4] at hm
          dsimp only at hm
          by_cases hr3 : r3 = []
          case neg => rw [if_neg hr3] at hm; simp at hm
          case pos =>
          rw [if_pos hr3, Option.some_inj] at hm
          cases hm
          refine ⟨?_, ?_⟩
          · exact ((readTLV_content_within (expectTLV_eq h4)).trans
              ((hsub.trans hr1eb).isInfix)).trans hebB
          · exact readTLV_rest_suffix (expectTLV_eq h1)
      by_cases hcrit : headIs 1 r1 = true
      case pos =>
        rw [if_pos hcrit] at h
        match h3 : expectTLV 1 r1 with
        | none => rw [h3] at h; simp at h
        | some (cb, r2) =>
          rw [h3] at h
          dsimp only at h
          match hb : parseBool cb with
          | none => rw [hb] at h; simp at h
          | some crit =>
            rw [hb] at h
            exact hfin crit r2 (readTLV_rest_suffix (expectTLV_eq h3)) h
      case neg =>
        rw [if_neg hcrit] at h
        exact hfin false r1 (List.suffix_refl r1) h

theorem dispatchAll_entries {es : List ParsedExtension} :
    ∀ {st st' : CertExtState}, dispatchAll st es = some st' →
      ∀ kv ∈ st'.extensions_,
        kv ∈ st.extensions_ ∨ ∃ e ∈ es, kv = (e.oid, e) := by
  induction es with
  | nil =>
    intro st st' h kv hkv
    simp only [dispatchAll, Option.some_inj] at h
    subst h
    exact Or.inl hkv
  | cons e es ih =>
    intro st st' h kv hkv
    simp only [dispatchAll] at h
    match hd : dispatchOne st e with
    | none => rw [hd] at h; simp at h
    | some st2 =>
      rw [hd] at h
      obtain ⟨-, hext⟩ := dispatchOne_extensions hd
      rcases ih h kv hkv with hin | ⟨e2, he2, hkv2⟩
      · rw [hext] at hin
        rcases List.mem_append.mp hin with hin2 | hin2
        · exact Or.inl hin2
        · simp at hin2
          exact Or.inr ⟨e, List.mem_cons_self e es, hin2⟩
      · exact Or.inr ⟨e2, List.mem_cons_of_mem e he2, hkv2⟩

/-! ## Concrete certificates used as witness inputs -/

/-- ASCII bytes of the UTCTime "230101000000Z". -/
def utcA : List Nat := [50, 51, 48, 49, 48, 49, 48, 48, 48, 48, 48, 48, 90]

/-- A Validity SEQUENCE of two UTCTimes. -/
def validityEx : List Nat := mkTLV 48 (mkTLV 23 utcA ++ mkTLV 23 utcA)

/-- An AlgorithmIdentifier: sha256WithRSAEncryption with NULL parameters. -/
def algIdEx : List Nat :=
  mkTLV 48 (mkTLV 6 [42, 134, 72, 134, 247, 13, 1, 1, 11] ++ mkTLV 5 [])

/-- A commonName AttributeTypeAndValue with the given string tag and
contents. -/
def cnATV (tag : Nat) (s : List Nat) : List Nat :=
  mkTLV 48 (mkTLV 6 [85, 4, 3] ++ mkTLV tag s)

/-- A one-RDN Name holding one commonName. -/
def nameOf (tag : Nat) (s : List Nat) : List Nat :=
  mkTLV 48 (mkTLV 49 (cnATV tag s))

/-- A placeholder SubjectPublicKeyInfo SEQUENCE (contents opaque to the
model). -/
def spkiEx : List Nat := mkTLV 48 [2, 1, 0]

/-- A minimal v1 TBS: no version wrapper, serial 1, CN="A" issuer,
CN="a" subject. -/
def tbsV1 : List Nat :=
  mkTLV 48 (mkTLV 2 [1] ++ algIdEx ++ nameOf 19 [65] ++ validityEx ++
    nameOf 19 [97] ++ spkiEx)

/-- The contents (body) of `tbsV1`. -/
def tbsV1Content : List Nat :=
  mkTLV 2 [1] ++ algIdEx ++ nameOf 19 [65] ++ validityEx ++
    nameOf 19 [97] ++ spkiEx

/-- A minimal v1 certificate. -/
def certV1 : List Nat := mkTLV 48 (tbsV1 ++ algIdEx ++ mkTLV 3 [0, 1])

/-- The explicit `[0]` version wrapper encoding v3. -/
def verWrapV3 : List Nat := mkTLV 160 (mkTLV 2 [2])

/-- BasicConstraints contents: cA = TRUE, pathLenConstraint = 0. -/
def bcVal : List Nat := mkTLV 48 (mkTLV 1 [255] ++ mkTLV 2 [0])

/-- A critical BasicConstraints extension. -/
def extBC : List Nat :=
  mkTLV 48 (mkTLV 6 [85, 29, 19] ++ mkTLV 1 [255] ++ mkTLV 4 bcVal)

/-- A critical extension with the unknown OID 1.3.1 and contents `04 00`. -/
def extUnknown : List Nat :=
  mkTLV 48 (mkTLV 6 [43, 3, 1] ++ mkTLV 1 [255] ++ mkTLV 4 [4, 0])

/-- The `[3]`-wrapped extensions SEQUENCE holding `extBC` and
`extUnknown`. -/
def extsV3 : List Nat := mkTLV 163 (mkTLV 48 (extBC ++ extUnknown))

/-- A v3 TBS with the two extensions. -/
def tbsV3 : List Nat :=
  mkTLV 48 (verWrapV3 ++ mkTLV 2 [1] ++ algIdEx ++ nameOf 19 [65] ++
    validityEx ++ nameOf 19 [97] ++ spkiEx ++ extsV3)

/-- A v3 certificate with a critical BasicConstraints and an unknown
critical extension. -/
def certV3 : List Nat := mkTLV 48 (tbsV3 ++ algIdEx ++ mkTLV 3 [0, 1])

/-- A v3 TBS with no extensions field. -/
def tbsV3NoExt : List Nat :=
  mkTLV 48 (verWrapV3 ++ mkTLV 2 [1] ++ algIdEx ++ nameOf 19 [65] ++
    validityEx ++ nameOf 19 [97] ++ spkiEx)

/-- A v3 certificate with no extensions field. -/
def certV3NoExt : List Nat :=
  mkTLV 48 (tbsV3NoExt ++ algIdEx ++ mkTLV 3 [0, 1])

/-- A v1 certificate whose issuer CN is the PrintableString "A  B" and whose
subject CN is the PrintableString "c". -/
def certN1 : List Nat :=
  mkTLV 48 ((mkTLV 48 (mkTLV 2 [1] ++ algIdEx ++ nameOf 19 [65, 32, 32, 66] ++
    validityEx ++ nameOf 19 [99] ++ spkiEx)) ++ algIdEx ++ mkTLV 3 [0, 1])

/-- A v1 certificate whose issuer CN is the UTF8String "a b" and whose
subject CN is the UTF8String "C". -/
def certN2 : List Nat :=
  mkTLV 48 ((mkTLV 48 (mkTLV 2 [1] ++ algIdEx ++ nameOf 12 [97, 32, 98] ++
    validityEx ++ nameOf 12 [67] ++ spkiEx)) ++ algIdEx ++ mkTLV 3 [0, 1])

/-- The parsed form of `certV1`. -/
def certV1Parsed : ParsedCertificate :=
  (ParsedCertificate.Create certV1 {}).getD {}

/-- The parsed form of `certV3`. -/
def certV3Parsed : ParsedCertificate :=
  (ParsedCertificate.Create certV3 {}).getD {}

/-! ## Claim theorems -/

/-- C1: in every successfully constructed ParsedCertificate each extension
OID appears at most once in the extensions map (equivalently, an input whose
extensions SEQUENCE repeats an OID never produces a non-null result — the
dispatcher fails on a duplicate before any certificate is assembled). -/
theorem C1_extension_uniqueness (bytes : List Nat)
    (opts : ParseCertificateOptions) (c : ParsedCertificate)
    (h : ParsedCertificate.Create bytes opts = some c) :
    (c.extensions_.map Prod.fst).Nodup := by
  obtain ⟨certBody, tbsC, r1, algC, r2, sigC, sigVal, tbs, sa, ni, ns, st,
    -, -, -, -, -, -, -, -, -, hst, hc⟩ := Create_cases h
  subst hc
  show (st.extensions_.map Prod.fst).Nodup
  rcases hst with ⟨-, rfl⟩ | ⟨etlv, ebody, exts, -, -, -, -, hdisp⟩
  · simp
  · exact dispatchAll_nodup hdisp (by simp)

set_option maxRecDepth 100000 in
/-- Witness for C1 at the concrete v3 certificate with two extensions. -/
theorem C1_witness : (certV3Parsed.extensions_.map Prod.fst).Nodup :=
  C1_extension_uniqueness certV3 {} certV3Parsed (by rfl)

/-- C2: if CreateAndAddToVector returns true the chain equals the old chain
with exactly the newly parsed certificate appended; if it returns false the
chain is unchanged. -/
theorem C2_create_and_append (bytes : List Nat)
    (opts : ParseCertificateOptions) (chain : List ParsedCertificate) :
    ((ParsedCertificate.CreateAndAddToVector bytes opts chain).1 = true →
      ∃ cert, ParsedCertificate.Create bytes opts = some cert ∧
        (ParsedCertificate.CreateAndAddToVector bytes opts chain).2 =
          chain ++ [cert]) ∧
    ((ParsedCertificate.CreateAndAddToVector bytes opts chain).1 = false →
      (ParsedCertificate.CreateAndAddToVector bytes opts chain).2 =
        chain) := by
  unfold ParsedCertificate.CreateAndAddToVector
  match h : ParsedCertificate.Create bytes opts with
  | some cert =>
    dsimp only
    exact ⟨fun _ => ⟨cert, rfl, rfl⟩, by simp⟩
  | none =>
    dsimp only
    exact ⟨by simp, fun _ => rfl⟩

/-- Witness for C2: appending to an empty chain with a parsable certificate,
and a non-parsable input leaving the chain unchanged. -/
theorem C2_witness :
    (∃ cert, ParsedCertificate.Create certV1 {} = some cert ∧
      (ParsedCertificate.CreateAndAddToVector certV1 {} []).2 = [] ++ [cert]) ∧
    (ParsedCertificate.CreateAndAddToVector [0] {} []).2 = [] :=
  ⟨(C2_create_and_append certV1 {} []).1 (by rfl),
   (C2_create_and_append [0] {} []).2 (by rfl)⟩

/-- The unknown critical extension carried by `certV3`, as a parsed
record. -/
def extU : ParsedExtension :=
  { oid := [43, 3, 1], critical := true, value := [4, 0] }

set_option maxRecDepth 100000 in
/-- C3: an extension whose OID is not in the handler table is never a
construction-time error, whatever its critical flag: the dispatcher accepts
it and the extensions map records it (critical flag included); concretely,
the v3 certificate carrying an unknown critical extension constructs and its
map holds that OID with critical = true. -/
theorem C3_unknown_critical (st : CertExtState) (ext : ParsedExtension)
    (hk : isKnownOid ext.oid = false)
    (hdup : lookupExt st.extensions_ ext.oid = none) :
    (∃ st', dispatchOne st ext = some st' ∧
      lookupExt st'.extensions_ ext.oid = some ext) ∧
    ∃ c, ParsedCertificate.Create certV3 {} = some c ∧
      lookupExt c.extensions_ [43, 3, 1] = some extU := by
  constructor
  · refine ⟨_, dispatchOne_unknown hk hdup, ?_⟩
    show lookupExt (st.extensions_ ++ [(ext.oid, ext)]) ext.oid = some ext
    exact lookupExt_append_self ext hdup
  · exact ⟨certV3Parsed, by rfl, by rfl⟩

set_option maxRecDepth 100000 in
/-- Witness for C3 at the empty dispatcher state and the concrete unknown
critical extension. -/
theorem C3_witness :
    (∃ st', dispatchOne {} extU = some st' ∧
      lookupExt st'.extensions_ extU.oid = some extU) ∧
    ∃ c, ParsedCertificate.Create certV3 {} = some c ∧
      lookupExt c.extensions_ [43, 3, 1] = some extU :=
  C3_unknown_critical {} extU (by decide) (by rfl)

/-- C4: two successfully constructed certificates whose issuer DNs and
subject DNs are equivalent under the directory-string matching rule have
byte-identical normalized_issuer and normalized_subject. -/
theorem C4_normalization_equivalence (b1 b2 : List Nat)
    (o1 o2 : ParseCertificateOptions) (c1 c2 : ParsedCertificate)
    (h1 : ParsedCertificate.Create b1 o1 = some c1)
    (h2 : ParsedCertificate.Create b2 o2 = some c2)
    (hiss : nameEquivB c1.issuer_tlv c2.issuer_tlv = true)
    (hsub : nameEquivB c1.subject_tlv c2.subject_tlv = true) :
    c1.normalized_issuer = c2.normalized_issuer ∧
      c1.normalized_subject = c2.normalized_subject := by
  obtain ⟨cb1, tc1, q1, ac1, q2, sc1, sv1, tbs1, sa1, ni1, ns1, st1,
    -, -, -, -, -, -, -, hni1, hns1, -, hc1⟩ := Create_cases h1
  obtain ⟨cb2, tc2, p1, ac2, p2, sc2, sv2, tbs2, sa2, ni2, ns2, st2,
    -, -, -, -, -, -, -, hni2, hns2, -, hc2⟩ := Create_cases h2
  subst hc1
  subst hc2
  constructor
  · show ni1 = ni2
    have := normalizeName_congr hiss
    rw [show ParsedCertificate.issuer_tlv
          (ParsedCertificate.assembleCert b1 cb1 tc1 ac1 sv1 tbs1 sa1 ni1 ns1 st1) =
          tbs1.issuer_tlv from rfl,
        show ParsedCertificate.issuer_tlv
          (ParsedCertificate.assembleCert b2 cb2 tc2 ac2 sv2 tbs2 sa2 ni2 ns2 st2) =
          tbs2.issuer_tlv from rfl] at this
    rw [hni1, hni2] at this
    exact Option.some_inj.mp this
  · show ns1 = ns2
    have := normalizeName_congr hsub
    rw [show ParsedCertificate.subject_tlv
          (ParsedCertificate.assembleCert b1 cb1 tc1 ac1 sv1 tbs1 sa1 ni1 ns1 st1) =
          tbs1.subject_tlv from rfl,
        show ParsedCertificate.subject_tlv
          (ParsedCertificate.assembleCert b2 cb2 tc2 ac2 sv2 tbs2 sa2 ni2 ns2 st2) =
          tbs2.subject_tlv from rfl] at this
    rw [hns1, hns2] at this
    exact Option.some_inj.mp this

/-- The parsed forms of the two name-equivalent certificates. -/
def certN1Parsed : ParsedCertificate :=
  (ParsedCertificate.Create certN1 {}).getD {}

/-- The parsed form of the second name-equivalent certificate. -/
def certN2Parsed : ParsedCertificate :=
  (ParsedCertificate.Create certN2 {}).getD {}

set_option maxRecDepth 400000 in
/-- Witness for C4: a PrintableString "A  B" issuer against a UTF8String
"a b" issuer (and "c" against "C" subjects) normalize identically. -/
theorem C4_witness :
    certN1Parsed.normalized_issuer = certN2Parsed.normalized_issuer ∧
      certN1Parsed.normalized_subject = certN2Parsed.normalized_subject :=
  C4_normalization_equivalence certN1 certN2 {} {} certN1Parsed certN2Parsed
    (by rfl) (by rfl) (by rfl) (by rfl)

/-- C5: the certificate TLV is a contiguous prefix of the original input,
and the TBS TLV, the outer signatureAlgorithm TLV, and the re-wrapped
signature BIT STRING concatenate exactly to the body of the certificate
TLV. -/
theorem C5_roundtrip_framing (bytes : List Nat)
    (opts : ParseCertificateOptions) (c : ParsedCertificate)
    (h : ParsedCertificate.Create bytes opts = some c) :
    c.der_cert <+: bytes ∧
    ∃ body, readTLV c.der_cert = some (48, body, []) ∧
      c.tbs_certificate_tlv ++ c.signature_algorithm_tlv ++
        mkTLV 3 (c.signature_value.unused_bits :: c.signature_value.bytes) =
          body := by
  obtain ⟨certBody, tbsC, r1, algC, r2, sigC, sigVal, tbs, sa, ni, ns, st,
    h1, h2, h3, h4, h5, -, -, -, -, -, hc⟩ := Create_cases h
  subst hc
  have hbytes : mkTLV 48 certBody = bytes := by
    have := readTLV_eq (expectTLV_eq h1)
    simpa using this
  have hder : ParsedCertificate.der_cert
      (ParsedCertificate.assembleCert bytes certBody tbsC algC sigVal tbs sa
        ni ns st) = mkTLV 48 certBody := rfl
  constructor
  · rw [hder, hbytes]
  · refine ⟨certBody, ?_, ?_⟩
    · rw [hder, hbytes]
      exact expectTLV_eq h1
    · have e2 := readTLV_eq (expectTLV_eq h2)
      have e3 := readTLV_eq (expectTLV_eq h3)
      have e4 := readTLV_eq (expectTLV_eq h4)
      have e5 := parseBitString_eq h5
      show mkTLV 48 tbsC ++ mkTLV 48 algC ++
        mkTLV 3 (sigVal.unused_bits :: sigVal.bytes) = certBody
      have e4' : mkTLV 3 sigC = r2 := by simpa using e4
      rw [e5, List.append_assoc, e4', e3, e2]

set_option maxRecDepth 400000 in
/-- Witness for C5 at the minimal v1 certificate. -/
theorem C5_witness :
    certV1Parsed.der_cert <+: certV1 ∧
    ∃ body, readTLV certV1Parsed.der_cert = some (48, body, []) ∧
      certV1Parsed.tbs_certificate_tlv ++
        certV1Parsed.signature_algorithm_tlv ++
        mkTLV 3 (certV1Parsed.signature_value.unused_bits ::
          certV1Parsed.signature_value.bytes) = body :=
  C5_roundtrip_framing certV1 {} certV1Parsed (by rfl)

/-- C6: every byte-range attribute of a successfully constructed
ParsedCertificate — the certificate TLV, the TBS TLV, the outer signature
algorithm TLV, the signature bits, the issuer/subject/SPKI TLVs, the serial
bytes, the inner signature-algorithm TLV, and every extension value — is a
contiguous range of the owned backing bytes, which are the input bytes. -/
theorem C6_slice_containment (bytes : List Nat)
    (opts : ParseCertificateOptions) (c : ParsedCertificate)
    (h : ParsedCertificate.Create bytes opts = some c) :
    c.cert_data_ = bytes ∧
    c.der_cert <:+: bytes ∧
    c.tbs_certificate_tlv <:+: bytes ∧
    c.signature_algorithm_tlv <:+: bytes ∧
    c.signature_value.bytes <:+: bytes ∧
    c.issuer_tlv <:+: bytes ∧
    c.subject_tlv <:+: bytes ∧
    c.tbs.spki_tlv <:+: bytes ∧
    c.tbs.serial_number <:+: bytes ∧
    c.tbs.signature_algorithm_tlv <:+: bytes ∧
    (∀ kv ∈ c.extensions_, kv.2.value <:+: bytes) := by
  obtain ⟨certBody, tbsC, r1, algC, r2, sigC, sigVal, tbs, sa, ni, ns, st,
    h1, h2, h3, h4, h5, htbs, -, -, -, hst, hc⟩ := Create_cases h
  subst hc
  have hbytes : mkTLV 48 certBody = bytes := by
    have := readTLV_eq (expectTLV_eq h1)
    simpa using this
  have hCB : certBody <:+: bytes := readTLV_content_within (expectTLV_eq h1)
  have hr1 : r1 <:+ certBody := readTLV_rest_suffix (expectTLV_eq h2)
  have hr2 : r2 <:+ r1 := readTLV_rest_suffix (expectTLV_eq h3)
  have htbsC : tbsC <:+: bytes :=
    (readTLV_content_within (expectTLV_eq h2)).trans hCB
  obtain ⟨hIss, hSub, hSpki, hSer, hSig, hExt⟩ := ParseTbs_slices htbs
  refine ⟨rfl, ?_, ?_, ?_, ?_, ?_, ?_, ?_, ?_, ?_, ?_⟩
  · show mkTLV 48 certBody <:+: bytes
    rw [hbytes]
  · exact (readTLV_tlv_front (expectTLV_eq h2)).isInfix.trans hCB
  · exact ((readTLV_tlv_front (expectTLV_eq h3)).isInfix.trans
      hr1.isInfix).trans hCB
  · have e5 := parseBitString_eq h5
    have hsv : sigVal.bytes <:+ sigC := ⟨[sigVal.unused_bits], e5⟩
    exact (((hsv.isInfix.trans
      (readTLV_content_within (expectTLV_eq h4))).trans
      (hr2.trans hr1).isInfix)).trans hCB
  · exact hIss.trans htbsC
  · exact hSub.trans htbsC
  · exact hSpki.trans htbsC
  · exact hSer.trans htbsC
  · exact hSig.trans htbsC
  · intro kv hkv
    show kv.2.value <:+: bytes
    rcases hst with ⟨-, rfl⟩ | ⟨etlv, ebody, exts, hetlv, h10, h11, -, hdisp⟩
    · exact absurd hkv (List.not_mem_nil kv)
    · rcases dispatchAll_entries hdisp kv hkv with hin | ⟨e, he, rfl⟩
      · exact absurd hin (List.not_mem_nil kv)
      · have hval : e.value <:+: ebody := by
          refine iterParse_mem
            (f := parseOneExtension)
            (P := fun a b => a.value <:+: b)
            (fun b a r hf => (parseOneExtension_within hf).1)
            (fun b a r hf => (parseOneExtension_within hf).2)
            (fun a b b' hp hs => hp.trans hs.isInfix)
            (ebody.length + 1) ebody exts h11 e he
        have hbody : ebody <:+: etlv :=
          readTLV_content_within (expectTLV_eq h10)
        exact ((hval.trans hbody).trans (hExt etlv hetlv)).trans htbsC

set_option maxRecDepth 400000 in
/-- Witness for C6 at the v3 certificate with extensions. -/
theorem C6_witness :
    certV3Parsed.cert_data_ = certV3 ∧
    certV3Parsed.der_cert <:+: certV3 ∧
    certV3Parsed.tbs_certificate_tlv <:+: certV3 ∧
    certV3Parsed.signature_algorithm_tlv <:+: certV3 ∧
    certV3Parsed.signature_value.bytes <:+: certV3 ∧
    certV3Parsed.issuer_tlv <:+: certV3 ∧
    certV3Parsed.subject_tlv <:+: certV3 ∧
    certV3Parsed.tbs.spki_tlv <:+: certV3 ∧
    certV3Parsed.tbs.serial_number <:+: certV3 ∧
    certV3Parsed.tbs.signature_algorithm_tlv <:+: certV3 ∧
    (∀ kv ∈ certV3Parsed.extensions_, kv.2.value <:+: certV3) :=
  C6_slice_containment certV3 {} certV3Parsed (by rfl)

/-- The parsed form of the v3 certificate without extensions. -/
def certV3NoExtParsed : ParsedCertificate :=
  (ParsedCertificate.Create certV3NoExt {}).getD {}

set_option maxRecDepth 400000 in
/-- Counterexample to C7 as stated: a v3 certificate with no extensions
field constructs successfully, so "extensions present iff version = v3"
fails in the right-to-left direction (§4.3 marks extensions OPTIONAL). -/
theorem C7_counterexample :
    ParsedCertificate.Create certV3NoExt {} = some certV3NoExtParsed ∧
    certV3NoExtParsed.tbs_.version = 3 ∧
    certV3NoExtParsed.tbs_.extensions_tlv = none ∧
    ¬(certV3NoExtParsed.tbs_.extensions_tlv.isSome = true ↔
        certV3NoExtParsed.tbs_.version = 3) :=
  ⟨by rfl, by rfl, by rfl, by decide⟩

/-- C7 (amended): a successfully constructed certificate has an extensions
field only if its version is v3 (so a v1/v2 certificate carrying one never
constructs), and when the field is present the extensions map is
non-empty. -/
theorem C7_extensions_only_v3 (bytes : List Nat)
    (opts : ParseCertificateOptions) (c : ParsedCertificate)
    (h : ParsedCertificate.Create bytes opts = some c) :
    (c.tbs_.extensions_tlv.isSome = true → c.tbs_.version = 3) ∧
    (c.tbs_.extensions_tlv.isSome = true → c.extensions_ ≠ []) := by
  obtain ⟨certBody, tbsC, r1, algC, r2, sigC, sigVal, tbs, sa, ni, ns, st,
    -, -, -, -, -, htbs, -, -, -, hst, hc⟩ := Create_cases h
  subst hc
  constructor
  · intro he
    exact (ParseTbs_version_policy htbs).2 he
  · intro he
    have he' : tbs.extensions_tlv.isSome = true := he
    rcases hst with ⟨hnone, rfl⟩ | ⟨etlv, ebody, exts, hetlv, -, -, hne, hdisp⟩
    · rw [hnone] at he'
      simp at he'
    · show st.extensions_ ≠ []
      match exts, hne with
      | e :: es, _ => exact dispatchAll_ne_nil hdisp

set_option maxRecDepth 400000 in
/-- Witness for the amended C7 at the v3 certificate with extensions. -/
theorem C7_witness :
    certV3Parsed.tbs_.version = 3 ∧ certV3Parsed.extensions_ ≠ [] :=
  ⟨(C7_extensions_only_v3 certV3 {} certV3Parsed (by rfl)).1 (by rfl),
   (C7_extensions_only_v3 certV3 {} certV3Parsed (by rfl)).2 (by rfl)⟩

/-- C8: a TBS that omits the `[0]` version wrapper is read as v1, and a TBS
that parses with version v1 carries no issuerUniqueID, no subjectUniqueID,
and no extensions field (so inputs with those fields and no wrapper never
construct). -/
theorem C8_default_version :
    (∀ b : List Nat, headIs 160 b = false → parseVersion b = some (1, b)) ∧
    (∀ (b : List Nat) (opts : ParseCertificateOptions)
        (t : ParsedTbsCertificate),
      ParseTbsCertificate b opts = some t → t.version = 1 →
        t.issuer_unique_id = none ∧ t.subject_unique_id = none ∧
          t.extensions_tlv = none) := by
  constructor
  · intro b hb
    simp [parseVersion, hb]
  · intro b opts t h hv
    have hpol := ParseTbs_version_policy h
    refine ⟨?_, ?_, ?_⟩
    · match hu : t.issuer_unique_id with
      | none => rfl
      | some x =>
        have h2 := hpol.1 (Or.inl (by rw [hu]; rfl))
        rw [hv] at h2
        omega
    · match hu : t.subject_unique_id with
      | none => rfl
      | some x =>
        have h2 := hpol.1 (Or.inr (by rw [hu]; rfl))
        rw [hv] at h2
        omega
    · match hu : t.extensions_tlv with
      | none => rfl
      | some x =>
        have h2 := hpol.2 (by rw [hu]; rfl)
        rw [hv] at h2
        omega

/-- The parsed TBS of the v1 example. -/
def tbsV1Parsed : ParsedTbsCertificate :=
  (ParseTbsCertificate tbsV1Content {}).getD {}

set_option maxRecDepth 400000 in
/-- Witness for C8: a TBS body starting with tag 48 defaults to v1, and the
concrete v1 TBS parses with no UniqueIDs and no extensions. -/
theorem C8_witness :
    parseVersion [48] = some (1, [48]) ∧
    (tbsV1Parsed.issuer_unique_id = none ∧
      tbsV1Parsed.subject_unique_id = none ∧
      tbsV1Parsed.extensions_tlv = none) :=
  ⟨C8_default_version.1 [48] (by rfl),
   C8_default_version.2 tbsV1Content {} tbsV1Parsed (by rfl) (by rfl)⟩

/-- C9: post-construction accessor calls never fail under their stated
preconditions: the signature-algorithm pointer is always set, and each
DCHECK-guarded typed accessor returns a value whenever its presence
predicate holds. -/
theorem C9_accessor_totality (bytes : List Nat)
    (opts : ParseCertificateOptions) (c : ParsedCertificate)
    (h : ParsedCertificate.Create bytes opts = some c) :
    (c.signature_algorithm).isSome = true ∧
    (c.has_basic_constraints = true → (c.basic_constraints).isSome = true) ∧
    (c.has_key_usage = true → (c.key_usage).isSome = true) ∧
    (c.has_extended_key_usage = true →
      (c.extended_key_usage).isSome = true) ∧
    (c.has_name_constraints = true → (c.name_constraints).isSome = true) ∧
    (c.has_policy_oids = true → (c.policy_oids).isSome = true) ∧
    (c.has_policy_constraints = true →
      (c.policy_constraints).isSome = true) ∧
    (c.has_policy_mappings = true → (c.policy_mappings).isSome = true) ∧
    (c.has_inhibit_any_policy = true →
      (c.inhibit_any_policy).isSome = true) := by
  refine ⟨?_, ?_, ?_, ?_, ?_, ?_, ?_, ?_, ?_⟩
  · obtain ⟨certBody, tbsC, r1, algC, r2, sigC, sigVal, tbs, sa, ni, ns, st,
      -, -, -, -, -, -, -, -, -, -, hc⟩ := Create_cases h
    subst hc
    rfl
  · intro hp
    unfold ParsedCertificate.has_basic_constraints at hp
    simp [ParsedCertificate.basic_constraints, hp]
  · intro hp
    unfold ParsedCertificate.has_key_usage at hp
    simp [ParsedCertificate.key_usage, hp]
  · intro hp
    unfold ParsedCertificate.has_extended_key_usage at hp
    simp [ParsedCertificate.extended_key_usage, hp]
  · intro hp
    unfold ParsedCertificate.has_name_constraints at hp
    unfold ParsedCertificate.name_constraints
    exact hp
  · intro hp
    unfold ParsedCertificate.has_policy_oids at hp
    simp [ParsedCertificate.policy_oids, hp]
  · intro hp
    unfold ParsedCertificate.has_policy_constraints at hp
    simp [ParsedCertificate.policy_constraints, hp]
  · intro hp
    unfold ParsedCertificate.has_policy_mappings at hp
    simp [ParsedCertificate.policy_mappings, hp]
  · intro hp
    unfold ParsedCertificate.has_inhibit_any_policy at hp
    simp [ParsedCertificate.inhibit_any_policy, hp]

set_option maxRecDepth 400000 in
/-- Witness for C9 at the v3 certificate: the signature algorithm is set and
the BasicConstraints accessor returns a value under its predicate. -/
theorem C9_witness :
    (certV3Parsed.signature_algorithm).isSome = true ∧
    (certV3Parsed.basic_constraints).isSome = true :=
  ⟨(C9_accessor_totality certV3 {} certV3Parsed (by rfl)).1,
   (C9_accessor_totality certV3 {} certV3Parsed (by rfl)).2.1 (by rfl)⟩

/-- C10: has_subject_alt_names is true exactly when subject_alt_names is
non-null; a constructed certificate without a SubjectAltName entry in its
extensions map reports false / null, and subject_alt_names_extension still
returns the default-initialized ParsedExtension rather than failing. -/
theorem C10_subject_alt_names (bytes : List Nat)
    (opts : ParseCertificateOptions) (c : ParsedCertificate)
    (h : ParsedCertificate.Create bytes opts = some c) :
    (c.has_subject_alt_names = true ↔ c.subject_alt_names ≠ none) ∧
    (lookupExt c.extensions_ kSubjectAltNameOid = none →
      c.has_subject_alt_names = false ∧ c.subject_alt_names = none ∧
        c.subject_alt_names_extension = ({} : ParsedExtension)) := by
  obtain ⟨certBody, tbsC, r1, algC, r2, sigC, sigVal, tbs, sa, ni, ns, st,
    -, -, -, -, -, -, -, -, -, hst, hc⟩ := Create_cases h
  subst hc
  have hsi : SanInv st := by
    rcases hst with ⟨-, rfl⟩ | ⟨etlv, ebody, exts, -, -, -, -, hdisp⟩
    · intro htrig
      rcases htrig with ht | ht <;> exact absurd rfl ht
    · refine dispatchAll_sanInv hdisp ?_
      intro htrig
      rcases htrig with ht | ht <;> exact absurd rfl ht
  constructor
  · show st.subject_alt_names_.isSome = true ↔ st.subject_alt_names_ ≠ none
    exact Option.isSome_iff_ne_none
  · intro hlook
    have hlook' : lookupExt st.extensions_ kSubjectAltNameOid = none := hlook
    have h1 : st.subject_alt_names_ = none := by
      by_contra hne
      exact (hsi (Or.inl hne)) hlook'
    have h2 : st.subject_alt_names_extension_ = {} := by
      by_contra hne
      exact (hsi (Or.inr hne)) hlook'
    refine ⟨?_, ?_, ?_⟩
    · show st.subject_alt_names_.isSome = false
      rw [h1]
      rfl
    · show st.subject_alt_names_ = none
      exact h1
    · show st.subject_alt_names_extension_ = {}
      exact h2

set_option maxRecDepth 400000 in
/-- Witness for C10 at the v1 certificate, which has no SubjectAltName. -/
theorem C10_witness :
    (certV1Parsed.has_subject_alt_names = true ↔
      certV1Parsed.subject_alt_names ≠ none) ∧
    (certV1Parsed.has_subject_alt_names = false ∧
      certV1Parsed.subject_alt_names = none ∧
      certV1Parsed.subject_alt_names_extension = ({} : ParsedExtension)) :=
  ⟨(C10_subject_alt_names certV1 {} certV1Parsed (by rfl)).1,
   (C10_subject_alt_names certV1 {} certV1Parsed (by rfl)).2 (by rfl)⟩

end X509
